import Mathlib

set_option linter.unusedTactic false
set_option linter.unusedVariables false

/-!
Verification of the task-registry core of `mcp-server-bugprowler`
(`src/main.rs`).

The registry state is the pair `(tasks, next_id)` held by the Rust
`TaskManager` struct (two `Arc<Mutex<...>>` cells).  The single exposed
operation is `add_task`, which constructs a `Task` from the current
counter and the caller's `title`/`description`, appends it, advances the
counter and returns a success payload.

`usize` arithmetic is modelled as natural numbers reduced modulo `2 ^ 64`
at the one place the source performs arithmetic (`*next_id += 1`,
src/main.rs line 56), matching the wrapping semantics of release builds.
-/

namespace BugProwler

/-- The `usize` modulus: ids and the counter live in `[0, 2 ^ 64)`. -/
def USIZE_MOD : Nat := 2 ^ 64

/-- `Task` (src/main.rs lines 16-22): id, title, description, completed. -/
structure Task where
  id : Nat
  title : String
  description : String
  completed : Bool
deriving DecidableEq

/-- The mutable registry state owned by `TaskManager`
(src/main.rs lines 24-28): the task vector and the id counter.
The `Arc<Mutex<...>>` wrappers and the `tool_router` field carry no
state of their own and are dropped; the locking discipline is modelled
separately by the interleaving semantics below. -/
structure TaskManager where
  tasks : List Task
  next_id : Nat
deriving DecidableEq

/-- `TaskManager::new` (src/main.rs lines 33-39): empty vector,
counter starting at 1. -/
def TaskManager.new : TaskManager :=
  { tasks := [], next_id := 1 }

/-- State transition of `add_task` (src/main.rs lines 42-57): construct
the task from the current counter value, advance the counter by one
(`usize` wrapping), push the task, return the constructed task. -/
def add_task (s : TaskManager) (title description : String) :
    TaskManager × Task :=
  let task : Task :=
    { id := s.next_id, title := title, description := description,
      completed := false }
  ({ tasks := s.tasks ++ [task], next_id := (s.next_id + 1) % USIZE_MOD },
   task)

/-- The success payload built at src/main.rs lines 59-63: exactly the
three fields of the `serde_json::json!` literal. -/
structure AddTaskResponse where
  success : Bool
  task : Task
  message : String
deriving DecidableEq

/-- Response shaping (src/main.rs lines 59-63). -/
def add_task_response (title : String) (task : Task) : AddTaskResponse :=
  { success := true, task := task,
    message := "Task '" ++ title ++ "' added successfully with ID "
      ++ Nat.repr task.id }

/-- The handler's error type (`rmcp::model::ErrorData`); `add_task` never
constructs a value of it, but the Rust return type `Result<_, McpError>`
admits one. -/
inductive McpError where
  | internalError : String → McpError
deriving DecidableEq

/-- The complete `add_task` handler (src/main.rs lines 42-68): mutate the
state, shape the response, and wrap it in `Ok` — the only return path. -/
def add_task_handler (s : TaskManager) (title description : String) :
    TaskManager × Except McpError AddTaskResponse :=
  let p := add_task s title description
  (p.1, Except.ok (add_task_response title p.2))

/-- A sequence of `add_task` calls on one registry: returns the final
state and the list of returned tasks, in call order. -/
def runCalls (s : TaskManager) : List (String × String) → TaskManager × List Task
  | [] => (s, [])
  | (t, d) :: rest =>
    let p := add_task s t d
    let q := runCalls p.1 rest
    (q.1, p.2 :: q.2)


/-- The modulus is positive. -/
theorem USIZE_MOD_pos : 0 < USIZE_MOD := by decide

/-- Counter evolution along a run: starting below the modulus, after `n`
calls the counter is the start value plus `n`, reduced modulo `2 ^ 64`. -/
theorem runCalls_next_id (inputs : List (String × String)) :
    ∀ s : TaskManager, s.next_id < USIZE_MOD →
      (runCalls s inputs).1.next_id = (s.next_id + inputs.length) % USIZE_MOD := by
  induction inputs with
  | nil =>
    intro s h
    simpa [runCalls] using (Nat.mod_eq_of_lt h).symm
  | cons p rest ih =>
    intro s h
    obtain ⟨t, d⟩ := p
    have h2 : (s.next_id + 1) % USIZE_MOD < USIZE_MOD :=
      Nat.mod_lt _ USIZE_MOD_pos
    simp only [runCalls, add_task]
    rw [ih _ h2, Nat.mod_add_mod]
    simp only [List.length_cons]
    ring_nf

/-- The ids returned by a run: the `i`-th call returns id
`(start + i) % 2 ^ 64`. -/
theorem runCalls_ids (inputs : List (String × String)) :
    ∀ s : TaskManager, s.next_id < USIZE_MOD →
      ((runCalls s inputs).2.map Task.id)
        = (List.range inputs.length).map (fun i => (s.next_id + i) % USIZE_MOD) := by
  induction inputs with
  | nil => intro s h; simp [runCalls]
  | cons p rest ih =>
    intro s h
    obtain ⟨t, d⟩ := p
    have h2 : (s.next_id + 1) % USIZE_MOD < USIZE_MOD :=
      Nat.mod_lt _ USIZE_MOD_pos
    simp only [runCalls, add_task, List.map_cons, List.length_cons]
    rw [List.range_succ_eq_map, List.map_cons, ih _ h2, List.map_map]
    simp only [List.cons.injEq]
    refine ⟨by simpa using (Nat.mod_eq_of_lt h).symm, List.map_congr_left ?_⟩
    intro i _
    simp only [Function.comp_apply, Nat.mod_add_mod, Nat.succ_eq_add_one]
    congr 1
    omega

/-- The final collection is the initial collection with the returned
tasks appended in call order. -/
theorem runCalls_tasks (inputs : List (String × String)) :
    ∀ s : TaskManager,
      (runCalls s inputs).1.tasks = s.tasks ++ (runCalls s inputs).2 := by
  induction inputs with
  | nil => intro s; simp [runCalls]
  | cons p rest ih =>
    intro s
    obtain ⟨t, d⟩ := p
    simp only [runCalls, add_task]
    rw [ih]
    simp

/-- A run of `n` calls returns `n` tasks. -/
theorem runCalls_length (inputs : List (String × String)) :
    ∀ s : TaskManager, (runCalls s inputs).2.length = inputs.length := by
  induction inputs with
  | nil => intro s; simp [runCalls]
  | cons p rest ih =>
    intro s
    obtain ⟨t, d⟩ := p
    simp only [runCalls, List.length_cons, ih]


/-- From a fresh registry, as long as the counter has not wrapped, the
ids returned by a run of `n` calls are exactly `1, 2, ..., n` in order. -/
theorem runCalls_new_ids (inputs : List (String × String))
    (h : inputs.length ≤ USIZE_MOD - 1) :
    ((runCalls TaskManager.new inputs).2.map Task.id)
      = List.range' 1 inputs.length := by
  rw [runCalls_ids inputs TaskManager.new (by decide), List.range'_eq_map_range]
  refine List.map_congr_left ?_
  intro i hi
  rw [List.mem_range] at hi
  show (1 + i) % USIZE_MOD = 1 + i
  exact Nat.mod_eq_of_lt (by omega)

/-- Claim C1 (amended): one `add_task` call appends the task
`{id = counter, title, description, completed = false}` as the last
element of the collection, the size grows by exactly one, the call
returns exactly that task, and the counter advances by one modulo
`2 ^ 64` — which is a plain `+ 1` whenever the counter is below
`2 ^ 64 - 1`. -/
theorem c1_add_task_step (s : TaskManager) (title description : String) :
    (add_task s title description).1.tasks
        = s.tasks ++ [(add_task s title description).2] ∧
    (add_task s title description).1.tasks.length = s.tasks.length + 1 ∧
    (add_task s title description).2
        = { id := s.next_id, title := title, description := description,
            completed := false } ∧
    (add_task s title description).1.next_id = (s.next_id + 1) % USIZE_MOD ∧
    (s.next_id + 1 < USIZE_MOD →
      (add_task s title description).1.next_id = s.next_id + 1) := by
  refine ⟨rfl, by simp [add_task], rfl, rfl, fun hlt => Nat.mod_eq_of_lt hlt⟩

/-- Witness for C1: concrete instantiation on a fresh registry,
discharging the inner no-wraparound hypothesis. -/
theorem c1_witness :
    TaskManager.new.next_id + 1 < USIZE_MOD ∧
    (add_task TaskManager.new "a" "b").1.tasks
        = TaskManager.new.tasks ++ [(add_task TaskManager.new "a" "b").2] ∧
    (add_task TaskManager.new "a" "b").1.next_id
        = TaskManager.new.next_id + 1 :=
  ⟨by decide, (c1_add_task_step TaskManager.new "a" "b").1,
   (c1_add_task_step TaskManager.new "a" "b").2.2.2.2 (by decide)⟩

/-- Counterexample to C1 as stated: at the pre-state whose counter is
`2 ^ 64 - 1` (`usize::MAX`), the counter does not advance by one — the
unchecked `*next_id += 1` wraps it to `0`. -/
theorem c1_counterexample :
    (add_task { tasks := [], next_id := USIZE_MOD - 1 } "t" "d").1.next_id = 0 ∧
    (USIZE_MOD - 1) + 1 ≠ 0 := by
  exact ⟨by decide, by decide⟩

/-- Claim C3: the success payload is the structured object with exactly
the fields `success = true`, `task` (the created task, whose id is the
pre-state counter), and `message` equal to
`Task '<title>' added successfully with ID <id>` with the title and id
substituted. -/
theorem c3_response_shape (s : TaskManager) (title description : String) :
    (add_task_handler s title description).2
      = Except.ok
          { success := true,
            task := (add_task s title description).2,
            message := "Task '" ++ title ++ "' added successfully with ID "
              ++ Nat.repr (add_task s title description).2.id } ∧
    (add_task s title description).2.id = s.next_id :=
  ⟨rfl, rfl⟩

/-- Claim C6: for every state and every input pair — empty strings
included — the handler returns `Ok` with `success = true`; there is no
failure branch and no failure payload. -/
theorem c6_no_failure (s : TaskManager) (title description : String) :
    ∃ r : AddTaskResponse,
      (add_task_handler s title description).2 = Except.ok r ∧
      r.success = true :=
  ⟨add_task_response title (add_task s title description).2, rfl, rfl⟩

/-- Claim C2 (amended): every sequence of at most `2 ^ 64` calls on one
registry returns pairwise distinct ids.  (The bound is where the
wrapping counter first revisits an already issued value.) -/
theorem c2_ids_distinct (inputs : List (String × String))
    (h : inputs.length ≤ USIZE_MOD) :
    ((runCalls TaskManager.new inputs).2.map Task.id).Nodup := by
  rw [runCalls_ids inputs TaskManager.new (by decide)]
  refine List.Nodup.map_on ?_ (List.nodup_range _)
  intro i hi j hj hij
  rw [List.mem_range] at hi hj
  simp only [TaskManager.new] at hij
  show i = j
  rcases Nat.lt_or_ge (1 + i) USIZE_MOD with hlt | hge
  · rcases Nat.lt_or_ge (1 + j) USIZE_MOD with hlt2 | hge2
    · rw [Nat.mod_eq_of_lt hlt, Nat.mod_eq_of_lt hlt2] at hij; omega
    · have hj3 : 1 + j = USIZE_MOD := by omega
      rw [Nat.mod_eq_of_lt hlt, hj3, Nat.mod_self] at hij; omega
  · have hi3 : 1 + i = USIZE_MOD := by omega
    rcases Nat.lt_or_ge (1 + j) USIZE_MOD with hlt2 | hge2
    · rw [hi3, Nat.mod_self, Nat.mod_eq_of_lt hlt2] at hij; omega
    · omega

/-- Witness for C2: two concrete calls yield distinct ids. -/
theorem c2_witness :
    ([("a", ""), ("b", "")] : List (String × String)).length ≤ USIZE_MOD ∧
    ((runCalls TaskManager.new
        ([("a", ""), ("b", "")] : List (String × String))).2.map Task.id).Nodup :=
  ⟨by decide, c2_ids_distinct _ (by decide)⟩

/-- Counterexample to C2 as stated: in a run of `2 ^ 64 + 1` calls the
wrapped counter reissues id `1`, so the returned ids are not pairwise
distinct. -/
theorem c2_counterexample :
    ¬ (((runCalls TaskManager.new
          (List.replicate (USIZE_MOD + 1) ("t", ""))).2.map Task.id).Nodup) := by
  intro hnd
  rw [runCalls_ids _ TaskManager.new (by decide)] at hnd
  have hinj := List.inj_on_of_nodup_map hnd
  have h0 : (0 : Nat) ∈ List.range
      (List.replicate (USIZE_MOD + 1)
        ((("t" : String), ("" : String)))).length := by
    rw [List.length_replicate, List.mem_range]; omega
  have hM : USIZE_MOD ∈ List.range
      (List.replicate (USIZE_MOD + 1)
        ((("t" : String), ("" : String)))).length := by
    rw [List.length_replicate, List.mem_range]; omega
  have heq := hinj h0 hM (by
    show (1 + 0) % USIZE_MOD = (1 + USIZE_MOD) % USIZE_MOD
    rw [Nat.add_zero, Nat.add_comm 1 USIZE_MOD, Nat.add_mod_left])
  have hpos := USIZE_MOD_pos
  omega

/-- Claim C5 (amended): among the first `2 ^ 64 - 1` calls on a fresh
registry (before the counter wraps), a call whose exclusive-access
window precedes another's returns a strictly smaller id: the returned
id sequence is strictly increasing. -/
theorem c5_monotonic (inputs : List (String × String))
    (h : inputs.length ≤ USIZE_MOD - 1) :
    List.Pairwise (fun a b => a < b)
      ((runCalls TaskManager.new inputs).2.map Task.id) := by
  rw [runCalls_new_ids inputs h, List.range'_eq_map_range]
  exact (List.pairwise_lt_range _).map _ (fun a b hab => by omega)

/-- Witness for C5: a concrete two-call run has increasing ids. -/
theorem c5_witness :
    ([("a", ""), ("b", "")] : List (String × String)).length ≤ USIZE_MOD - 1 ∧
    List.Pairwise (fun a b => a < b)
      ((runCalls TaskManager.new
        ([("a", ""), ("b", "")] : List (String × String))).2.map Task.id) :=
  ⟨by decide, c5_monotonic _ (by decide)⟩

/-- Counterexample to C5 as stated: in a run of `2 ^ 64` calls, the
second-to-last call returns id `2 ^ 64 - 1` and the last returns id
`0`, so the id sequence is not strictly increasing. -/
theorem c5_counterexample :
    ¬ List.Pairwise (fun a b => a < b)
        ((runCalls TaskManager.new
          (List.replicate USIZE_MOD ("t", ""))).2.map Task.id) := by
  intro hp
  rw [runCalls_ids _ TaskManager.new (by decide)] at hp
  simp only [TaskManager.new] at hp
  rw [List.pairwise_map, List.length_replicate, List.pairwise_iff_getElem] at hp
  have hpos : 2 ≤ USIZE_MOD := by decide
  have h1 : USIZE_MOD - 2 < (List.range USIZE_MOD).length := by
    rw [List.length_range]; omega
  have h2 : USIZE_MOD - 1 < (List.range USIZE_MOD).length := by
    rw [List.length_range]; omega
  have := hp (USIZE_MOD - 2) (USIZE_MOD - 1) h1 h2 (by omega)
  rw [List.getElem_range, List.getElem_range] at this
  have e1 : (1 + (USIZE_MOD - 2)) % USIZE_MOD = USIZE_MOD - 1 := by
    rw [Nat.mod_eq_of_lt (by omega)]
    omega
  have e2 : (1 + (USIZE_MOD - 1)) % USIZE_MOD = 0 := by
    have : 1 + (USIZE_MOD - 1) = USIZE_MOD := by omega
    rw [this, Nat.mod_self]
  rw [e1, e2] at this
  omega


/-- Claim C7 (amended): after any sequence of at most `2 ^ 64 - 2`
calls on a fresh registry (so the counter has not wrapped), the counter
is strictly greater than every id stored in the collection and every id
returned to a caller. -/
theorem c7_counter_dominates (inputs : List (String × String))
    (h : inputs.length ≤ USIZE_MOD - 2) :
    ∀ tk, (tk ∈ (runCalls TaskManager.new inputs).1.tasks ∨
           tk ∈ (runCalls TaskManager.new inputs).2) →
      tk.id < (runCalls TaskManager.new inputs).1.next_id := by
  intro tk htk
  have hmem : tk ∈ (runCalls TaskManager.new inputs).2 := by
    rcases htk with h1 | h2
    · rw [runCalls_tasks] at h1
      simpa [TaskManager.new] using h1
    · exact h2
  have hids : tk.id ∈ (runCalls TaskManager.new inputs).2.map Task.id :=
    List.mem_map_of_mem _ hmem
  rw [runCalls_new_ids inputs (by omega)] at hids
  rw [runCalls_next_id inputs TaskManager.new (by decide)]
  have hlen : (TaskManager.new.next_id + inputs.length) % USIZE_MOD
      = 1 + inputs.length := by
    show (1 + inputs.length) % USIZE_MOD = 1 + inputs.length
    have hM : (2 : Nat) ≤ USIZE_MOD := by decide
    exact Nat.mod_eq_of_lt (by omega)
  rw [hlen]
  rw [List.mem_range'_1] at hids
  omega

/-- Witness for C7: after two concrete calls the counter dominates all
stored and returned ids. -/
theorem c7_witness :
    ([("a", ""), ("b", "")] : List (String × String)).length ≤ USIZE_MOD - 2 ∧
    ∀ tk, (tk ∈ (runCalls TaskManager.new
              ([("a", ""), ("b", "")] : List (String × String))).1.tasks ∨
           tk ∈ (runCalls TaskManager.new
              ([("a", ""), ("b", "")] : List (String × String))).2) →
      tk.id < (runCalls TaskManager.new
          ([("a", ""), ("b", "")] : List (String × String))).1.next_id :=
  ⟨by decide, c7_counter_dominates _ (by decide)⟩

/-- Counterexample to C7 as stated: after `2 ^ 64 - 1` calls the
counter has wrapped to `0`, which is not greater than the stored
id `1`. -/
theorem c7_counterexample :
    ¬ (∀ tk, tk ∈ (runCalls TaskManager.new
          (List.replicate (USIZE_MOD - 1) ("t", ""))).1.tasks →
        tk.id < (runCalls TaskManager.new
          (List.replicate (USIZE_MOD - 1) ("t", ""))).1.next_id) := by
  intro hall
  have hnext : (runCalls TaskManager.new
      (List.replicate (USIZE_MOD - 1) ("t", ""))).1.next_id = 0 := by
    rw [runCalls_next_id _ TaskManager.new (by decide), List.length_replicate]
    show (1 + (USIZE_MOD - 1)) % USIZE_MOD = 0
    have h1 : 1 + (USIZE_MOD - 1) = USIZE_MOD := by
      have := USIZE_MOD_pos; omega
    rw [h1, Nat.mod_self]
  have hids : ((runCalls TaskManager.new
      (List.replicate (USIZE_MOD - 1) ("t", ""))).2.map Task.id)
        = List.range' 1 (USIZE_MOD - 1) := by
    rw [runCalls_new_ids _ (by rw [List.length_replicate])]
    rw [List.length_replicate]
  have h1mem : (1 : Nat) ∈ ((runCalls TaskManager.new
      (List.replicate (USIZE_MOD - 1) ("t", ""))).2.map Task.id) := by
    rw [hids, List.mem_range'_1]
    constructor
    · omega
    · have : (2 : Nat) ≤ USIZE_MOD := by decide
      omega
  rw [List.mem_map] at h1mem
  obtain ⟨tk, htk, hid⟩ := h1mem
  have htk2 : tk ∈ (runCalls TaskManager.new
      (List.replicate (USIZE_MOD - 1) ("t", ""))).1.tasks := by
    rw [runCalls_tasks]
    exact List.mem_append.mpr (Or.inr htk)
  have := hall tk htk2
  rw [hnext, hid] at this
  omega

/-- Claim C8 (amended): on a fresh registry the first call returns id 1
(concretely, `create_task("Buy milk", "2% organic")` yields the task
`{id = 1, ...}` and the message
`Task 'Buy milk' added successfully with ID 1`), and any `N ≤ 2^64 - 1`
calls issue exactly the ids `1, ..., N` in order — no duplicates, no
gaps. -/
theorem c8_fresh_ids (inputs : List (String × String))
    (h : inputs.length ≤ USIZE_MOD - 1) :
    (add_task TaskManager.new "Buy milk" "2% organic").2
        = { id := 1, title := "Buy milk", description := "2% organic",
            completed := false } ∧
    (add_task_response "Buy milk"
        (add_task TaskManager.new "Buy milk" "2% organic").2).message
        = "Task 'Buy milk' added successfully with ID 1" ∧
    ((runCalls TaskManager.new inputs).2.map Task.id)
        = List.range' 1 inputs.length :=
  ⟨by decide, by decide, runCalls_new_ids inputs h⟩

/-- Witness for C8: a concrete two-call run issues exactly ids 1, 2. -/
theorem c8_witness :
    ([("A", ""), ("B", "")] : List (String × String)).length ≤ USIZE_MOD - 1 ∧
    ((runCalls TaskManager.new
        ([("A", ""), ("B", "")] : List (String × String))).2.map Task.id)
      = List.range' 1 ([("A", ""), ("B", "")] : List (String × String)).length :=
  ⟨by decide, (c8_fresh_ids _ (by decide)).2.2⟩

/-- Counterexample to C8 as stated: a run of `N = 2 ^ 64` calls issues
id `0`, which lies outside `{1, ..., N}`. -/
theorem c8_counterexample :
    (0 : Nat) ∈ ((runCalls TaskManager.new
        (List.replicate USIZE_MOD ("t", ""))).2.map Task.id) ∧
    ¬ ((0 : Nat) ∈ List.range' 1
        (List.replicate USIZE_MOD (("t", "")) : List (String × String)).length) := by
  constructor
  · rw [runCalls_ids _ TaskManager.new (by decide)]
    rw [List.mem_map]
    refine ⟨USIZE_MOD - 1, ?_, ?_⟩
    · rw [List.mem_range, List.length_replicate]
      have := USIZE_MOD_pos; omega
    · show (1 + (USIZE_MOD - 1)) % USIZE_MOD = 0
      have h1 : 1 + (USIZE_MOD - 1) = USIZE_MOD := by
        have := USIZE_MOD_pos; omega
      rw [h1, Nat.mod_self]
  · rw [List.mem_range'_1]
    omega

/-- Claim C9, evaluated at the failing input: with the counter at
`usize::MAX` and id 1 already issued, the next call is NOT treated as a
fatal or unsupported condition — it succeeds, the unchecked increment
silently wraps the counter to `0`, and two calls later the previously
issued id `1` is handed out again. -/
theorem c9_wraparound :
    (add_task_handler
        { tasks := [{ id := 1, title := "t", description := "d",
                      completed := false }],
          next_id := USIZE_MOD - 1 } "u" "v").2.isOk = true ∧
    (add_task
        { tasks := [{ id := 1, title := "t", description := "d",
                      completed := false }],
          next_id := USIZE_MOD - 1 } "u" "v").2.id = USIZE_MOD - 1 ∧
    (add_task
        { tasks := [{ id := 1, title := "t", description := "d",
                      completed := false }],
          next_id := USIZE_MOD - 1 } "u" "v").1.next_id = 0 ∧
    (add_task
        (add_task
          { tasks := [{ id := 1, title := "t", description := "d",
                        completed := false }],
            next_id := USIZE_MOD - 1 } "u" "v").1 "w" "x").2.id = 0 ∧
    (add_task
        (add_task
          (add_task
            { tasks := [{ id := 1, title := "t", description := "d",
                          completed := false }],
              next_id := USIZE_MOD - 1 } "u" "v").1 "w" "x").1 "y" "z").2.id = 1 ∧
    (1 : Nat) ∈ ([{ id := 1, title := "t", description := "d",
                     completed := false }] : List Task).map Task.id := by
  refine ⟨rfl, rfl, by decide, by decide, by decide, by decide⟩

/-- The service factory passed to the HTTP layer in `main`
(src/main.rs line 112, the closure handed to `StreamableHttpService::new`):
every invocation constructs a fresh `TaskManager` and wraps it in `Ok`.
Under rmcp's `StreamableHttpService`, this factory is invoked once per
MCP session, so each session operates on its own registry. -/
def service_factory (_u : Unit) : Except String TaskManager :=
  Except.ok TaskManager.new

/-- Counterexample to C10 as stated: registry construction is a factory
invoked by the session layer, not a once-per-process constructor; two
factory-created registries (two sessions) both assign id 1 to their
first task, and the second registry holds only its own task — under one
shared process-wide registry the second creation would have produced id
2 and a collection of size 2. -/
theorem c10_counterexample :
    service_factory () = Except.ok TaskManager.new ∧
    (add_task TaskManager.new "A" "a").2.id = 1 ∧
    (add_task TaskManager.new "B" "b").2.id = 1 ∧
    (add_task TaskManager.new "B" "b").1.tasks.length = 1 := by
  refine ⟨rfl, by decide, by decide, by decide⟩

/-- Claim C10 (amended): a registry is created per invocation of the
service factory (one per MCP session under rmcp's
`StreamableHttpService`), starting empty with counter 1; calls on one
registry share its state (sequential ids 1 then 2), while separately
created registries are independent values. -/
theorem c10_per_session (u : Unit) (titleA dA titleB dB : String) :
    service_factory u = Except.ok TaskManager.new ∧
    TaskManager.new.tasks = [] ∧
    TaskManager.new.next_id = 1 ∧
    (add_task TaskManager.new titleA dA).2.id = 1 ∧
    (add_task (add_task TaskManager.new titleA dA).1 titleB dB).2.id = 2 :=
  ⟨rfl, rfl, rfl, rfl, rfl⟩


/-- One in-flight `add_task` call (src/main.rs lines 42-57), as a small
program: `pc` counts the lines executed so far (0 before `tasks.lock()`,
1 after it, 2 after `next_id.lock()`, 3 after constructing the local
`task`, 4 after `*next_id += 1`, 5 after `tasks.push`, 6 after the scope
ends and both guards drop), `reg` is the local `task` variable. -/
structure ThreadSt where
  pc : Nat
  reg : Option Task
deriving DecidableEq

/-- A configuration of two concurrent `add_task` calls A and B on one
`TaskManager`: the shared fields mirror the two `Arc<Mutex<...>>` cells
of the Rust struct — `t_owner`/`n_owner` record which call currently
holds the `tasks` / `next_id` mutex. -/
structure Conf where
  tasks : List Task
  next_id : Nat
  t_owner : Option Bool
  n_owner : Option Bool
  thA : ThreadSt
  thB : ThreadSt
deriving DecidableEq

/-- The stepping call's thread state. -/
def thOf (c : Conf) (me : Bool) : ThreadSt := if me then c.thA else c.thB

/-- Replace the stepping call's thread state. -/
def setTh (c : Conf) (me : Bool) (t : ThreadSt) : Conf :=
  if me then { c with thA := t } else { c with thB := t }

/-- One atomic micro-step of call `me` (`true` = A), following the
statement order of `add_task` (src/main.rs lines 46-57): acquire the
`tasks` lock, acquire the `next_id` lock, construct the task from the
current counter, increment the counter (wrapping `usize`), push the
task, release both guards at scope end.  `none` means the call is
blocked on a lock or already finished. -/
def cstep (tA dA tB dB : String) (c : Conf) (me : Bool) : Option Conf :=
  let th := thOf c me
  if th.pc = 0 then
    if c.t_owner = none then
      some (setTh { c with t_owner := some me } me { th with pc := 1 })
    else none
  else if th.pc = 1 then
    if c.n_owner = none then
      some (setTh { c with n_owner := some me } me { th with pc := 2 })
    else none
  else if th.pc = 2 then
    some (setTh c me
      { pc := 3,
        reg := some { id := c.next_id, title := if me then tA else tB,
                      description := if me then dA else dB,
                      completed := false } })
  else if th.pc = 3 then
    some (setTh { c with next_id := (c.next_id + 1) % USIZE_MOD } me
      { th with pc := 4 })
  else if th.pc = 4 then
    match th.reg with
    | some tk =>
      some (setTh { c with tasks := c.tasks ++ [tk] } me { th with pc := 5 })
    | none => none
  else if th.pc = 5 then
    some (setTh { c with t_owner := none, n_owner := none } me
      { th with pc := 6 })
  else none

/-- Run a schedule: each entry names the call that tries to step next;
a blocked attempt leaves the configuration unchanged. -/
def crun (tA dA tB dB : String) (sched : List Bool) (c : Conf) : Conf :=
  match sched with
  | [] => c
  | w :: rest => crun tA dA tB dB rest ((cstep tA dA tB dB c w).getD c)

/-- Both calls about to start on a fresh `TaskManager`. -/
def cinit : Conf :=
  { tasks := [], next_id := 1, t_owner := none, n_owner := none,
    thA := { pc := 0, reg := none }, thB := { pc := 0, reg := none } }

/-- What a call's local `task` variable looks like at each line: after
construction it carries the caller's strings and `completed = false`;
between construction and increment its id equals the counter, after the
increment (while the locks are still held) the counter is one above it. -/
def RegOk (title desc : String) (next_id : Nat) (th : ThreadSt) : Prop :=
  3 ≤ th.pc → ∃ tk, th.reg = some tk ∧ tk.title = title ∧
    tk.description = desc ∧ tk.completed = false ∧
    (th.pc = 3 → tk.id = next_id) ∧
    (th.pc = 4 ∨ th.pc = 5 → tk.id + 1 = next_id)

/-- The shared task vector as a function of how far the two calls have
progressed: pushes happen in lock-acquisition order and assign ids 1
and 2. -/
def TasksOk (c : Conf) : Prop :=
  (c.thA.pc < 5 ∧ c.thB.pc < 5 → c.tasks = []) ∧
  (5 ≤ c.thA.pc ∧ c.thB.pc < 5 →
    ∃ ta, c.thA.reg = some ta ∧ c.tasks = [ta] ∧ ta.id = 1) ∧
  (c.thA.pc < 5 ∧ 5 ≤ c.thB.pc →
    ∃ tb, c.thB.reg = some tb ∧ c.tasks = [tb] ∧ tb.id = 1) ∧
  (5 ≤ c.thA.pc ∧ 5 ≤ c.thB.pc →
    ∃ ta tb, c.thA.reg = some ta ∧ c.thB.reg = some tb ∧
      ((c.tasks = [ta, tb] ∧ ta.id = 1 ∧ tb.id = 2) ∨
       (c.tasks = [tb, ta] ∧ tb.id = 1 ∧ ta.id = 2)))

/-- The global invariant of two concurrent `add_task` calls: program
counters are in range, at most one call is inside the locked window,
the two lock owners are determined by the program counters, the counter
equals one plus the number of increments performed, and the local
registers and shared vector are as described by `RegOk` / `TasksOk`. -/
def Inv (tA dA tB dB : String) (c : Conf) : Prop :=
  c.thA.pc ≤ 6 ∧ c.thB.pc ≤ 6 ∧
  ¬ (1 ≤ c.thA.pc ∧ c.thA.pc ≤ 5 ∧ 1 ≤ c.thB.pc ∧ c.thB.pc ≤ 5) ∧
  c.t_owner = (if 1 ≤ c.thA.pc ∧ c.thA.pc ≤ 5 then some true
               else if 1 ≤ c.thB.pc ∧ c.thB.pc ≤ 5 then some false
               else none) ∧
  c.n_owner = (if 2 ≤ c.thA.pc ∧ c.thA.pc ≤ 5 then some true
               else if 2 ≤ c.thB.pc ∧ c.thB.pc ≤ 5 then some false
               else none) ∧
  c.next_id = 1 + (if 4 ≤ c.thA.pc then 1 else 0)
                + (if 4 ≤ c.thB.pc then 1 else 0) ∧
  RegOk tA dA c.next_id c.thA ∧
  RegOk tB dB c.next_id c.thB ∧
  TasksOk c

/-- The invariant holds initially. -/
theorem inv_cinit (tA dA tB dB : String) : Inv tA dA tB dB cinit := by
  simp [Inv, RegOk, TasksOk, cinit]

/-- Every micro-step of either call preserves the invariant. -/
theorem cstep_inv (tA dA tB dB : String) (c : Conf) (me : Bool)
    (h : Inv tA dA tB dB c) :
    Inv tA dA tB dB ((cstep tA dA tB dB c me).getD c) := by
  obtain ⟨tasks, nid, tow, now, ⟨pa, ra⟩, ⟨pb, rb⟩⟩ := c
  simp only [Inv, RegOk, TasksOk] at h
  obtain ⟨hA6, hB6, hmux, hto, hno, hnid, hrA, hrB, ht0, ht1, ht2, ht3⟩ := h
  cases me
  case true =>
    have hsplit : pa = 0 ∨ pa = 1 ∨ pa = 2 ∨ pa = 3 ∨ pa = 4 ∨ pa = 5 ∨ pa = 6 := by ((try clear g12); (try clear g11); (try clear g10); (try clear g9); (try clear g8); (try clear g7); (try clear hrA); (try clear hrB); (try clear ht0); (try clear ht1); (try clear ht2); (try clear ht3); omega)
    rcases hsplit with rfl | rfl | rfl | rfl | rfl | rfl | rfl
    · -- pc = 0: attempt to take the tasks lock
      by_cases hw : 1 ≤ pb ∧ pb ≤ 5
      · have htow : tow = some false := by rw [hto]; simp [hw]
        have hnone : cstep tA dA tB dB
            { tasks := tasks, next_id := nid, t_owner := tow, n_owner := now,
                        thA := { pc := 0, reg := ra },
                        thB := { pc := pb, reg := rb } } true = none := by
          simp [cstep, thOf, htow]
        rw [hnone]
        exact ⟨hA6, hB6, hmux, hto, hno, hnid, hrA, hrB, ht0, ht1, ht2, ht3⟩
      · have htow : tow = none := by rw [hto]; simp [hw]
        have hstep : cstep tA dA tB dB
            { tasks := tasks, next_id := nid, t_owner := tow, n_owner := now,
                        thA := { pc := 0, reg := ra },
                        thB := { pc := pb, reg := rb } } true
            = some { tasks := tasks, next_id := nid, t_owner := some true, n_owner := now,
                        thA := { pc := 1, reg := ra },
                        thB := { pc := pb, reg := rb } } := by
          simp [cstep, thOf, setTh, htow]
        rw [hstep]
        have g1 : (1 : Nat) ≤ 6 := by norm_num
        have g3 : ¬ (1 ≤ 1 ∧ 1 ≤ 5 ∧ 1 ≤ pb ∧ pb ≤ 5) := by ((try clear g12); (try clear g11); (try clear g10); (try clear g9); (try clear g8); (try clear g7); (try clear hrA); (try clear hrB); (try clear ht0); (try clear ht1); (try clear ht2); (try clear ht3); omega)
        have g4 : some true = if 1 ≤ 1 ∧ 1 ≤ 5 then some true
                else if 1 ≤ pb ∧ pb ≤ 5 then some false else none := by split_ifs <;> first | rfl | ((try clear g12); (try clear g11); (try clear g10); (try clear g9); (try clear g8); (try clear g7); (try clear hrA); (try clear hrB); (try clear ht0); (try clear ht1); (try clear ht2); (try clear ht3); omega)
        have g5 : now = if 2 ≤ 1 ∧ 1 ≤ 5 then some true
                else if 2 ≤ pb ∧ pb ≤ 5 then some false else none := by rw [hno]; split_ifs <;> first | rfl | ((try clear g12); (try clear g11); (try clear g10); (try clear g9); (try clear g8); (try clear g7); (try clear hrA); (try clear hrB); (try clear ht0); (try clear ht1); (try clear ht2); (try clear ht3); omega)
        have g6 : nid = 1 + (if 4 ≤ 1 then 1 else 0) + (if 4 ≤ pb then 1 else 0) := by rw [hnid]; split_ifs <;> ((try clear g12); (try clear g11); (try clear g10); (try clear g9); (try clear g8); (try clear g7); (try clear hrA); (try clear hrB); (try clear ht0); (try clear ht1); (try clear ht2); (try clear ht3); omega)
        have g7 : 3 ≤ 1 → ∃ w, ra = some w ∧ w.title = tA ∧
                w.description = dA ∧ w.completed = false ∧
                (1 = 3 → w.id = nid) ∧ (1 = 4 ∨ 1 = 5 → w.id + 1 = nid) := fun h3 => absurd h3 (by norm_num)
        have g8 := hrB
        have g9 : 1 < 5 ∧ pb < 5 → tasks = [] := fun hx => ht0 ⟨by ((try clear g12); (try clear g11); (try clear g10); (try clear g9); (try clear g8); (try clear g7); (try clear hrA); (try clear hrB); (try clear ht0); (try clear ht1); (try clear ht2); (try clear ht3); omega), hx.2⟩
        have g10 : 5 ≤ 1 ∧ pb < 5 → ∃ x, ra = some x ∧ tasks = [x] ∧ x.id = 1 := fun hx => absurd hx.1 (by norm_num)
        have g11 : 1 < 5 ∧ 5 ≤ pb → ∃ x, rb = some x ∧ tasks = [x] ∧ x.id = 1 := fun hx => ht2 ⟨by ((try clear g12); (try clear g11); (try clear g10); (try clear g9); (try clear g8); (try clear g7); (try clear hrA); (try clear hrB); (try clear ht0); (try clear ht1); (try clear ht2); (try clear ht3); omega), hx.2⟩
        have g12 : 5 ≤ 1 ∧ 5 ≤ pb → ∃ x y, ra = some x ∧ rb = some y ∧
                ((tasks = [x, y] ∧ x.id = 1 ∧ y.id = 2) ∨
                 (tasks = [y, x] ∧ y.id = 1 ∧ x.id = 2)) :=
        fun hx => absurd hx.1 (by norm_num)
        exact ⟨g1, hB6, g3, g4, g5, g6, g7, g8, ⟨g9, g10, g11, g12⟩⟩
    · -- pc = 1: take the counter lock (the other thread is outside the window)
      have hnow : now = none := by rw [hno]; split_ifs <;> first | rfl | ((try clear g12); (try clear g11); (try clear g10); (try clear g9); (try clear g8); (try clear g7); (try clear hrA); (try clear hrB); (try clear ht0); (try clear ht1); (try clear ht2); (try clear ht3); omega)
      have hstep : cstep tA dA tB dB
          { tasks := tasks, next_id := nid, t_owner := tow, n_owner := now,
                        thA := { pc := 1, reg := ra },
                        thB := { pc := pb, reg := rb } } true
          = some { tasks := tasks, next_id := nid, t_owner := tow, n_owner := some true,
                        thA := { pc := 2, reg := ra },
                        thB := { pc := pb, reg := rb } } := by
        simp [cstep, thOf, setTh, hnow]
      rw [hstep]
      have g1 : (2 : Nat) ≤ 6 := by norm_num
      have g3 : ¬ (1 ≤ 2 ∧ 2 ≤ 5 ∧ 1 ≤ pb ∧ pb ≤ 5) := by ((try clear g12); (try clear g11); (try clear g10); (try clear g9); (try clear g8); (try clear g7); (try clear hrA); (try clear hrB); (try clear ht0); (try clear ht1); (try clear ht2); (try clear ht3); omega)
      have g4 : tow = if 1 ≤ 2 ∧ 2 ≤ 5 then some true
                else if 1 ≤ pb ∧ pb ≤ 5 then some false else none := by rw [hto]; split_ifs <;> first | rfl | ((try clear g12); (try clear g11); (try clear g10); (try clear g9); (try clear g8); (try clear g7); (try clear hrA); (try clear hrB); (try clear ht0); (try clear ht1); (try clear ht2); (try clear ht3); omega)
      have g5 : some true = if 2 ≤ 2 ∧ 2 ≤ 5 then some true
                else if 2 ≤ pb ∧ pb ≤ 5 then some false else none := by split_ifs <;> first | rfl | ((try clear g12); (try clear g11); (try clear g10); (try clear g9); (try clear g8); (try clear g7); (try clear hrA); (try clear hrB); (try clear ht0); (try clear ht1); (try clear ht2); (try clear ht3); omega)
      have g6 : nid = 1 + (if 4 ≤ 2 then 1 else 0) + (if 4 ≤ pb then 1 else 0) := by rw [hnid]; split_ifs <;> ((try clear g12); (try clear g11); (try clear g10); (try clear g9); (try clear g8); (try clear g7); (try clear hrA); (try clear hrB); (try clear ht0); (try clear ht1); (try clear ht2); (try clear ht3); omega)
      have g7 : 3 ≤ 2 → ∃ w, ra = some w ∧ w.title = tA ∧
                w.description = dA ∧ w.completed = false ∧
                (2 = 3 → w.id = nid) ∧ (2 = 4 ∨ 2 = 5 → w.id + 1 = nid) := fun h3 => absurd h3 (by norm_num)
      have g8 := hrB
      have g9 : 2 < 5 ∧ pb < 5 → tasks = [] := fun hx => ht0 ⟨by ((try clear g12); (try clear g11); (try clear g10); (try clear g9); (try clear g8); (try clear g7); (try clear hrA); (try clear hrB); (try clear ht0); (try clear ht1); (try clear ht2); (try clear ht3); omega), hx.2⟩
      have g10 : 5 ≤ 2 ∧ pb < 5 → ∃ x, ra = some x ∧ tasks = [x] ∧ x.id = 1 := fun hx => absurd hx.1 (by norm_num)
      have g11 : 2 < 5 ∧ 5 ≤ pb → ∃ x, rb = some x ∧ tasks = [x] ∧ x.id = 1 := fun hx => ht2 ⟨by ((try clear g12); (try clear g11); (try clear g10); (try clear g9); (try clear g8); (try clear g7); (try clear hrA); (try clear hrB); (try clear ht0); (try clear ht1); (try clear ht2); (try clear ht3); omega), hx.2⟩
      have g12 : 5 ≤ 2 ∧ 5 ≤ pb → ∃ x y, ra = some x ∧ rb = some y ∧
                ((tasks = [x, y] ∧ x.id = 1 ∧ y.id = 2) ∨
                 (tasks = [y, x] ∧ y.id = 1 ∧ x.id = 2)) :=
        fun hx => absurd hx.1 (by norm_num)
      exact ⟨g1, hB6, g3, g4, g5, g6, g7, g8, ⟨g9, g10, g11, g12⟩⟩
    · -- pc = 2: construct the local task from the current counter
      have hstep : cstep tA dA tB dB
          { tasks := tasks, next_id := nid, t_owner := tow, n_owner := now,
                        thA := { pc := 2, reg := ra },
                        thB := { pc := pb, reg := rb } } true
          = some { tasks := tasks, next_id := nid, t_owner := tow, n_owner := now,
                        thA := { pc := 3, reg := some ({ id := nid, title := tA, description := dA, completed := false } : Task) },
                        thB := { pc := pb, reg := rb } } := by
        simp [cstep, thOf, setTh]
      rw [hstep]
      have g1 : (3 : Nat) ≤ 6 := by norm_num
      have g3 : ¬ (1 ≤ 3 ∧ 3 ≤ 5 ∧ 1 ≤ pb ∧ pb ≤ 5) := by ((try clear g12); (try clear g11); (try clear g10); (try clear g9); (try clear g8); (try clear g7); (try clear hrA); (try clear hrB); (try clear ht0); (try clear ht1); (try clear ht2); (try clear ht3); omega)
      have g4 : tow = if 1 ≤ 3 ∧ 3 ≤ 5 then some true
                else if 1 ≤ pb ∧ pb ≤ 5 then some false else none := by rw [hto]; split_ifs <;> first | rfl | ((try clear g12); (try clear g11); (try clear g10); (try clear g9); (try clear g8); (try clear g7); (try clear hrA); (try clear hrB); (try clear ht0); (try clear ht1); (try clear ht2); (try clear ht3); omega)
      have g5 : now = if 2 ≤ 3 ∧ 3 ≤ 5 then some true
                else if 2 ≤ pb ∧ pb ≤ 5 then some false else none := by rw [hno]; split_ifs <;> first | rfl | ((try clear g12); (try clear g11); (try clear g10); (try clear g9); (try clear g8); (try clear g7); (try clear hrA); (try clear hrB); (try clear ht0); (try clear ht1); (try clear ht2); (try clear ht3); omega)
      have g6 : nid = 1 + (if 4 ≤ 3 then 1 else 0) + (if 4 ≤ pb then 1 else 0) := by rw [hnid]; split_ifs <;> ((try clear g12); (try clear g11); (try clear g10); (try clear g9); (try clear g8); (try clear g7); (try clear hrA); (try clear hrB); (try clear ht0); (try clear ht1); (try clear ht2); (try clear ht3); omega)
      have g7 : 3 ≤ 3 → ∃ w, some ({ id := nid, title := tA, description := dA, completed := false } : Task) = some w ∧ w.title = tA ∧
                w.description = dA ∧ w.completed = false ∧
                (3 = 3 → w.id = nid) ∧ (3 = 4 ∨ 3 = 5 → w.id + 1 = nid) :=
        fun h3 => ⟨_, rfl, rfl, rfl, rfl, fun h3x => rfl,
          fun hx => absurd hx (by norm_num)⟩
      have g8 := hrB
      have g9 : 3 < 5 ∧ pb < 5 → tasks = [] := fun hx => ht0 ⟨by ((try clear g12); (try clear g11); (try clear g10); (try clear g9); (try clear g8); (try clear g7); (try clear hrA); (try clear hrB); (try clear ht0); (try clear ht1); (try clear ht2); (try clear ht3); omega), hx.2⟩
      have g10 : 5 ≤ 3 ∧ pb < 5 → ∃ x, some ({ id := nid, title := tA, description := dA, completed := false } : Task) = some x ∧ tasks = [x] ∧ x.id = 1 := fun hx => absurd hx.1 (by norm_num)
      have g11 : 3 < 5 ∧ 5 ≤ pb → ∃ x, rb = some x ∧ tasks = [x] ∧ x.id = 1 := fun hx => ht2 ⟨by ((try clear g12); (try clear g11); (try clear g10); (try clear g9); (try clear g8); (try clear g7); (try clear hrA); (try clear hrB); (try clear ht0); (try clear ht1); (try clear ht2); (try clear ht3); omega), hx.2⟩
      have g12 : 5 ≤ 3 ∧ 5 ≤ pb → ∃ x y, some ({ id := nid, title := tA, description := dA, completed := false } : Task) = some x ∧ rb = some y ∧
                ((tasks = [x, y] ∧ x.id = 1 ∧ y.id = 2) ∨
                 (tasks = [y, x] ∧ y.id = 1 ∧ x.id = 2)) :=
        fun hx => absurd hx.1 (by norm_num)
      exact ⟨g1, hB6, g3, g4, g5, g6, g7, g8, ⟨g9, g10, g11, g12⟩⟩
    · -- pc = 3: increment the counter; nid is at most 2, so no wraparound
      have hq06 : pb = 0 ∨ pb = 6 := by ((try clear g12); (try clear g11); (try clear g10); (try clear g9); (try clear g8); (try clear g7); (try clear hrA); (try clear hrB); (try clear ht0); (try clear ht1); (try clear ht2); (try clear ht3); omega)
      have hnle : nid ≤ 2 := by rw [hnid]; split_ifs <;> ((try clear g12); (try clear g11); (try clear g10); (try clear g9); (try clear g8); (try clear g7); (try clear hrA); (try clear hrB); (try clear ht0); (try clear ht1); (try clear ht2); (try clear ht3); omega)
      have hmod : (nid + 1) % USIZE_MOD = nid + 1 := by
        have hM : (3 : Nat) < USIZE_MOD := by decide
        exact Nat.mod_eq_of_lt (by ((try clear g12); (try clear g11); (try clear g10); (try clear g9); (try clear g8); (try clear g7); (try clear hrA); (try clear hrB); (try clear ht0); (try clear ht1); (try clear ht2); (try clear ht3); omega))
      obtain ⟨tk, hreg, he1, he2, he3, hid3, _⟩ := hrA (by norm_num)
      have hstep : cstep tA dA tB dB
          { tasks := tasks, next_id := nid, t_owner := tow, n_owner := now,
                        thA := { pc := 3, reg := ra },
                        thB := { pc := pb, reg := rb } } true
          = some { tasks := tasks, next_id := nid + 1, t_owner := tow, n_owner := now,
                        thA := { pc := 4, reg := ra },
                        thB := { pc := pb, reg := rb } } := by
        simp [cstep, thOf, setTh, hmod]
      rw [hstep]
      have g1 : (4 : Nat) ≤ 6 := by norm_num
      have g3 : ¬ (1 ≤ 4 ∧ 4 ≤ 5 ∧ 1 ≤ pb ∧ pb ≤ 5) := by ((try clear g12); (try clear g11); (try clear g10); (try clear g9); (try clear g8); (try clear g7); (try clear hrA); (try clear hrB); (try clear ht0); (try clear ht1); (try clear ht2); (try clear ht3); omega)
      have g4 : tow = if 1 ≤ 4 ∧ 4 ≤ 5 then some true
                else if 1 ≤ pb ∧ pb ≤ 5 then some false else none := by rw [hto]; split_ifs <;> first | rfl | ((try clear g12); (try clear g11); (try clear g10); (try clear g9); (try clear g8); (try clear g7); (try clear hrA); (try clear hrB); (try clear ht0); (try clear ht1); (try clear ht2); (try clear ht3); omega)
      have g5 : now = if 2 ≤ 4 ∧ 4 ≤ 5 then some true
                else if 2 ≤ pb ∧ pb ≤ 5 then some false else none := by rw [hno]; split_ifs <;> first | rfl | ((try clear g12); (try clear g11); (try clear g10); (try clear g9); (try clear g8); (try clear g7); (try clear hrA); (try clear hrB); (try clear ht0); (try clear ht1); (try clear ht2); (try clear ht3); omega)
      have g6 : nid + 1 = 1 + (if 4 ≤ 4 then 1 else 0) + (if 4 ≤ pb then 1 else 0) := by rw [hnid]; split_ifs <;> ((try clear g12); (try clear g11); (try clear g10); (try clear g9); (try clear g8); (try clear g7); (try clear hrA); (try clear hrB); (try clear ht0); (try clear ht1); (try clear ht2); (try clear ht3); omega)
      have g7 : 3 ≤ 4 → ∃ w, ra = some w ∧ w.title = tA ∧
                w.description = dA ∧ w.completed = false ∧
                (4 = 3 → w.id = nid + 1) ∧ (4 = 4 ∨ 4 = 5 → w.id + 1 = nid + 1) :=
        fun h3 => ⟨tk, hreg, he1, he2, he3,
          fun hx => absurd hx (by norm_num),
          fun hx => by rw [hid3 rfl]⟩
      have g8 : 3 ≤ pb → ∃ w, rb = some w ∧ w.title = tB ∧
                w.description = dB ∧ w.completed = false ∧
                (pb = 3 → w.id = nid + 1) ∧ (pb = 4 ∨ pb = 5 → w.id + 1 = nid + 1) := by
        intro h3b
        rcases hq06 with h0 | h6
        · exact absurd h3b (by ((try clear g12); (try clear g11); (try clear g10); (try clear g9); (try clear g8); (try clear g7); (try clear hrA); (try clear hrB); (try clear ht0); (try clear ht1); (try clear ht2); (try clear ht3); omega))
        · obtain ⟨tk2, f1, f2, f3, f4, _, _⟩ := hrB h3b
          exact ⟨tk2, f1, f2, f3, f4, fun hh => absurd hh (by ((try clear g12); (try clear g11); (try clear g10); (try clear g9); (try clear g8); (try clear g7); (try clear hrA); (try clear hrB); (try clear ht0); (try clear ht1); (try clear ht2); (try clear ht3); omega)),
            fun hh => absurd hh (by ((try clear g12); (try clear g11); (try clear g10); (try clear g9); (try clear g8); (try clear g7); (try clear hrA); (try clear hrB); (try clear ht0); (try clear ht1); (try clear ht2); (try clear ht3); omega))⟩
      have g9 : 4 < 5 ∧ pb < 5 → tasks = [] := fun hx => ht0 ⟨by ((try clear g12); (try clear g11); (try clear g10); (try clear g9); (try clear g8); (try clear g7); (try clear hrA); (try clear hrB); (try clear ht0); (try clear ht1); (try clear ht2); (try clear ht3); omega), hx.2⟩
      have g10 : 5 ≤ 4 ∧ pb < 5 → ∃ x, ra = some x ∧ tasks = [x] ∧ x.id = 1 := fun hx => absurd hx.1 (by norm_num)
      have g11 : 4 < 5 ∧ 5 ≤ pb → ∃ x, rb = some x ∧ tasks = [x] ∧ x.id = 1 := fun hx => ht2 ⟨by ((try clear g12); (try clear g11); (try clear g10); (try clear g9); (try clear g8); (try clear g7); (try clear hrA); (try clear hrB); (try clear ht0); (try clear ht1); (try clear ht2); (try clear ht3); omega), hx.2⟩
      have g12 : 5 ≤ 4 ∧ 5 ≤ pb → ∃ x y, ra = some x ∧ rb = some y ∧
                ((tasks = [x, y] ∧ x.id = 1 ∧ y.id = 2) ∨
                 (tasks = [y, x] ∧ y.id = 1 ∧ x.id = 2)) :=
        fun hx => absurd hx.1 (by norm_num)
      exact ⟨g1, hB6, g3, g4, g5, g6, g7, g8, ⟨g9, g10, g11, g12⟩⟩
    · -- pc = 4: push the constructed task
      have hq06 : pb = 0 ∨ pb = 6 := by ((try clear g12); (try clear g11); (try clear g10); (try clear g9); (try clear g8); (try clear g7); (try clear hrA); (try clear hrB); (try clear ht0); (try clear ht1); (try clear ht2); (try clear ht3); omega)
      obtain ⟨tk, hreg, he1, he2, he3, _, hid45⟩ := hrA (by norm_num)
      have hid : tk.id + 1 = nid := hid45 (Or.inl rfl)
      have hstep : cstep tA dA tB dB
          { tasks := tasks, next_id := nid, t_owner := tow, n_owner := now,
                        thA := { pc := 4, reg := ra },
                        thB := { pc := pb, reg := rb } } true
          = some { tasks := tasks ++ [tk], next_id := nid, t_owner := tow, n_owner := now,
                        thA := { pc := 5, reg := some tk },
                        thB := { pc := pb, reg := rb } } := by
        simp [cstep, thOf, setTh, hreg]
      rw [hstep]
      have g1 : (5 : Nat) ≤ 6 := by norm_num
      have g3 : ¬ (1 ≤ 5 ∧ 5 ≤ 5 ∧ 1 ≤ pb ∧ pb ≤ 5) := by ((try clear g12); (try clear g11); (try clear g10); (try clear g9); (try clear g8); (try clear g7); (try clear hrA); (try clear hrB); (try clear ht0); (try clear ht1); (try clear ht2); (try clear ht3); omega)
      have g4 : tow = if 1 ≤ 5 ∧ 5 ≤ 5 then some true
                else if 1 ≤ pb ∧ pb ≤ 5 then some false else none := by rw [hto]; split_ifs <;> first | rfl | ((try clear g12); (try clear g11); (try clear g10); (try clear g9); (try clear g8); (try clear g7); (try clear hrA); (try clear hrB); (try clear ht0); (try clear ht1); (try clear ht2); (try clear ht3); omega)
      have g5 : now = if 2 ≤ 5 ∧ 5 ≤ 5 then some true
                else if 2 ≤ pb ∧ pb ≤ 5 then some false else none := by rw [hno]; split_ifs <;> first | rfl | ((try clear g12); (try clear g11); (try clear g10); (try clear g9); (try clear g8); (try clear g7); (try clear hrA); (try clear hrB); (try clear ht0); (try clear ht1); (try clear ht2); (try clear ht3); omega)
      have g6 : nid = 1 + (if 4 ≤ 5 then 1 else 0) + (if 4 ≤ pb then 1 else 0) := by rw [hnid]; split_ifs <;> ((try clear g12); (try clear g11); (try clear g10); (try clear g9); (try clear g8); (try clear g7); (try clear hrA); (try clear hrB); (try clear ht0); (try clear ht1); (try clear ht2); (try clear ht3); omega)
      have g7 : 3 ≤ 5 → ∃ w, some tk = some w ∧ w.title = tA ∧
                w.description = dA ∧ w.completed = false ∧
                (5 = 3 → w.id = nid) ∧ (5 = 4 ∨ 5 = 5 → w.id + 1 = nid) :=
        fun h3 => ⟨tk, rfl, he1, he2, he3,
          fun hx => absurd hx (by norm_num), fun hx => hid⟩
      have g8 := hrB
      rcases hq06 with h0 | h6
      · -- the other thread has not run: its task slot is empty
        have hts : tasks = [] := ht0 ⟨by ((try clear g12); (try clear g11); (try clear g10); (try clear g9); (try clear g8); (try clear g7); (try clear hrA); (try clear hrB); (try clear ht0); (try clear ht1); (try clear ht2); (try clear ht3); omega), by ((try clear g12); (try clear g11); (try clear g10); (try clear g9); (try clear g8); (try clear g7); (try clear hrA); (try clear hrB); (try clear ht0); (try clear ht1); (try clear ht2); (try clear ht3); omega)⟩
        have hn2 : nid = 2 := by rw [hnid]; split_ifs <;> ((try clear g12); (try clear g11); (try clear g10); (try clear g9); (try clear g8); (try clear g7); (try clear hrA); (try clear hrB); (try clear ht0); (try clear ht1); (try clear ht2); (try clear ht3); omega)
        have hone : tk.id = 1 := by ((try clear g12); (try clear g11); (try clear g10); (try clear g9); (try clear g8); (try clear g7); (try clear hrA); (try clear hrB); (try clear ht0); (try clear ht1); (try clear ht2); (try clear ht3); omega)
        have g9 : 5 < 5 ∧ pb < 5 → tasks ++ [tk] = [] := fun hx => absurd hx.1 (by norm_num)
        have g10 : 5 ≤ 5 ∧ pb < 5 → ∃ x, some tk = some x ∧ tasks ++ [tk] = [x] ∧ x.id = 1 :=
          fun hx => ⟨tk, rfl, by simp [hts], hone⟩
        have g11 : 5 < 5 ∧ 5 ≤ pb → ∃ x, rb = some x ∧ tasks ++ [tk] = [x] ∧ x.id = 1 := fun hx => absurd hx.1 (by norm_num)
        have g12 : 5 ≤ 5 ∧ 5 ≤ pb → ∃ x y, some tk = some x ∧ rb = some y ∧
                ((tasks ++ [tk] = [x, y] ∧ x.id = 1 ∧ y.id = 2) ∨
                 (tasks ++ [tk] = [y, x] ∧ y.id = 1 ∧ x.id = 2)) :=
          fun hx => absurd hx.2 (by ((try clear g12); (try clear g11); (try clear g10); (try clear g9); (try clear g8); (try clear g7); (try clear hrA); (try clear hrB); (try clear ht0); (try clear ht1); (try clear ht2); (try clear ht3); omega))
        exact ⟨g1, hB6, g3, g4, g5, g6, g7, g8, ⟨g9, g10, g11, g12⟩⟩
      · -- the other thread already finished: its task is in the list with id 1
        obtain ⟨to2, hro2, hts, hido⟩ := ht2 ⟨by norm_num, by ((try clear g12); (try clear g11); (try clear g10); (try clear g9); (try clear g8); (try clear g7); (try clear hrA); (try clear hrB); (try clear ht0); (try clear ht1); (try clear ht2); (try clear ht3); omega)⟩
        have hn3 : nid = 3 := by rw [hnid]; split_ifs <;> ((try clear g12); (try clear g11); (try clear g10); (try clear g9); (try clear g8); (try clear g7); (try clear hrA); (try clear hrB); (try clear ht0); (try clear ht1); (try clear ht2); (try clear ht3); omega)
        have htwo : tk.id = 2 := by ((try clear g12); (try clear g11); (try clear g10); (try clear g9); (try clear g8); (try clear g7); (try clear hrA); (try clear hrB); (try clear ht0); (try clear ht1); (try clear ht2); (try clear ht3); omega)
        have g9 : 5 < 5 ∧ pb < 5 → tasks ++ [tk] = [] := fun hx => absurd hx.2 (by ((try clear g12); (try clear g11); (try clear g10); (try clear g9); (try clear g8); (try clear g7); (try clear hrA); (try clear hrB); (try clear ht0); (try clear ht1); (try clear ht2); (try clear ht3); omega))
        have g10 : 5 ≤ 5 ∧ pb < 5 → ∃ x, some tk = some x ∧ tasks ++ [tk] = [x] ∧ x.id = 1 := fun hx => absurd hx.2 (by ((try clear g12); (try clear g11); (try clear g10); (try clear g9); (try clear g8); (try clear g7); (try clear hrA); (try clear hrB); (try clear ht0); (try clear ht1); (try clear ht2); (try clear ht3); omega))
        have g11 : 5 < 5 ∧ 5 ≤ pb → ∃ x, rb = some x ∧ tasks ++ [tk] = [x] ∧ x.id = 1 := fun hx => absurd hx.1 (by norm_num)
        have g12 : 5 ≤ 5 ∧ 5 ≤ pb → ∃ x y, some tk = some x ∧ rb = some y ∧
                ((tasks ++ [tk] = [x, y] ∧ x.id = 1 ∧ y.id = 2) ∨
                 (tasks ++ [tk] = [y, x] ∧ y.id = 1 ∧ x.id = 2)) :=
          fun hx => ⟨tk, to2, rfl, hro2,
            Or.inr ⟨by simp [hts], hido, htwo⟩⟩
        exact ⟨g1, hB6, g3, g4, g5, g6, g7, g8, ⟨g9, g10, g11, g12⟩⟩
    · -- pc = 5: release both locks
      have hq06 : pb = 0 ∨ pb = 6 := by ((try clear g12); (try clear g11); (try clear g10); (try clear g9); (try clear g8); (try clear g7); (try clear hrA); (try clear hrB); (try clear ht0); (try clear ht1); (try clear ht2); (try clear ht3); omega)
      obtain ⟨tk, hreg, he1, he2, he3, _, _⟩ := hrA (by norm_num)
      have hstep : cstep tA dA tB dB
          { tasks := tasks, next_id := nid, t_owner := tow, n_owner := now,
                        thA := { pc := 5, reg := ra },
                        thB := { pc := pb, reg := rb } } true
          = some { tasks := tasks, next_id := nid, t_owner := none, n_owner := none,
                        thA := { pc := 6, reg := ra },
                        thB := { pc := pb, reg := rb } } := by
        simp [cstep, thOf, setTh]
      rw [hstep]
      have g1 : (6 : Nat) ≤ 6 := by norm_num
      have g3 : ¬ (1 ≤ 6 ∧ 6 ≤ 5 ∧ 1 ≤ pb ∧ pb ≤ 5) := by ((try clear g12); (try clear g11); (try clear g10); (try clear g9); (try clear g8); (try clear g7); (try clear hrA); (try clear hrB); (try clear ht0); (try clear ht1); (try clear ht2); (try clear ht3); omega)
      have g4 : (none : Option Bool) = if 1 ≤ 6 ∧ 6 ≤ 5 then some true
                else if 1 ≤ pb ∧ pb ≤ 5 then some false else none := by split_ifs <;> first | rfl | ((try clear g12); (try clear g11); (try clear g10); (try clear g9); (try clear g8); (try clear g7); (try clear hrA); (try clear hrB); (try clear ht0); (try clear ht1); (try clear ht2); (try clear ht3); omega)
      have g5 : (none : Option Bool) = if 2 ≤ 6 ∧ 6 ≤ 5 then some true
                else if 2 ≤ pb ∧ pb ≤ 5 then some false else none := by split_ifs <;> first | rfl | ((try clear g12); (try clear g11); (try clear g10); (try clear g9); (try clear g8); (try clear g7); (try clear hrA); (try clear hrB); (try clear ht0); (try clear ht1); (try clear ht2); (try clear ht3); omega)
      have g6 : nid = 1 + (if 4 ≤ 6 then 1 else 0) + (if 4 ≤ pb then 1 else 0) := by rw [hnid]; split_ifs <;> ((try clear g12); (try clear g11); (try clear g10); (try clear g9); (try clear g8); (try clear g7); (try clear hrA); (try clear hrB); (try clear ht0); (try clear ht1); (try clear ht2); (try clear ht3); omega)
      have g7 : 3 ≤ 6 → ∃ w, ra = some w ∧ w.title = tA ∧
                w.description = dA ∧ w.completed = false ∧
                (6 = 3 → w.id = nid) ∧ (6 = 4 ∨ 6 = 5 → w.id + 1 = nid) :=
        fun h3 => ⟨tk, hreg, he1, he2, he3,
          fun hx => absurd hx (by norm_num), fun hx => absurd hx (by norm_num)⟩
      have g8 := hrB
      have g9 : 6 < 5 ∧ pb < 5 → tasks = [] := fun hx => absurd hx.1 (by norm_num)
      have g10 : 5 ≤ 6 ∧ pb < 5 → ∃ x, ra = some x ∧ tasks = [x] ∧ x.id = 1 := fun hx => ht1 ⟨by ((try clear g12); (try clear g11); (try clear g10); (try clear g9); (try clear g8); (try clear g7); (try clear hrA); (try clear hrB); (try clear ht0); (try clear ht1); (try clear ht2); (try clear ht3); omega), hx.2⟩
      have g11 : 6 < 5 ∧ 5 ≤ pb → ∃ x, rb = some x ∧ tasks = [x] ∧ x.id = 1 := fun hx => absurd hx.1 (by norm_num)
      have g12 : 5 ≤ 6 ∧ 5 ≤ pb → ∃ x y, ra = some x ∧ rb = some y ∧
                ((tasks = [x, y] ∧ x.id = 1 ∧ y.id = 2) ∨
                 (tasks = [y, x] ∧ y.id = 1 ∧ x.id = 2)) :=
        fun hx => ht3 ⟨by ((try clear g12); (try clear g11); (try clear g10); (try clear g9); (try clear g8); (try clear g7); (try clear hrA); (try clear hrB); (try clear ht0); (try clear ht1); (try clear ht2); (try clear ht3); omega), hx.2⟩
      exact ⟨g1, hB6, g3, g4, g5, g6, g7, g8, ⟨g9, g10, g11, g12⟩⟩
    · -- pc = 6: finished, no further step
      have hnone : cstep tA dA tB dB
          { tasks := tasks, next_id := nid, t_owner := tow, n_owner := now,
                        thA := { pc := 6, reg := ra },
                        thB := { pc := pb, reg := rb } } true = none := by
        simp [cstep, thOf]
      rw [hnone]
      exact ⟨hA6, hB6, hmux, hto, hno, hnid, hrA, hrB, ht0, ht1, ht2, ht3⟩
  case false =>
    have hsplit : pb = 0 ∨ pb = 1 ∨ pb = 2 ∨ pb = 3 ∨ pb = 4 ∨ pb = 5 ∨ pb = 6 := by ((try clear g12); (try clear g11); (try clear g10); (try clear g9); (try clear g8); (try clear g7); (try clear hrA); (try clear hrB); (try clear ht0); (try clear ht1); (try clear ht2); (try clear ht3); omega)
    rcases hsplit with rfl | rfl | rfl | rfl | rfl | rfl | rfl
    · -- pc = 0: attempt to take the tasks lock
      by_cases hw : 1 ≤ pa ∧ pa ≤ 5
      · have htow : tow = some true := by rw [hto]; simp [hw]
        have hnone : cstep tA dA tB dB
            { tasks := tasks, next_id := nid, t_owner := tow, n_owner := now,
                        thA := { pc := pa, reg := ra },
                        thB := { pc := 0, reg := rb } } false = none := by
          simp [cstep, thOf, htow]
        rw [hnone]
        exact ⟨hA6, hB6, hmux, hto, hno, hnid, hrA, hrB, ht0, ht1, ht2, ht3⟩
      · have htow : tow = none := by rw [hto]; simp [hw]
        have hstep : cstep tA dA tB dB
            { tasks := tasks, next_id := nid, t_owner := tow, n_owner := now,
                        thA := { pc := pa, reg := ra },
                        thB := { pc := 0, reg := rb } } false
            = some { tasks := tasks, next_id := nid, t_owner := some false, n_owner := now,
                        thA := { pc := pa, reg := ra },
                        thB := { pc := 1, reg := rb } } := by
          simp [cstep, thOf, setTh, htow]
        rw [hstep]
        have g1 : (1 : Nat) ≤ 6 := by norm_num
        have g3 : ¬ (1 ≤ pa ∧ pa ≤ 5 ∧ 1 ≤ 1 ∧ 1 ≤ 5) := by ((try clear g12); (try clear g11); (try clear g10); (try clear g9); (try clear g8); (try clear g7); (try clear hrA); (try clear hrB); (try clear ht0); (try clear ht1); (try clear ht2); (try clear ht3); omega)
        have g4 : some false = if 1 ≤ pa ∧ pa ≤ 5 then some true
                else if 1 ≤ 1 ∧ 1 ≤ 5 then some false else none := by split_ifs <;> first | rfl | ((try clear g12); (try clear g11); (try clear g10); (try clear g9); (try clear g8); (try clear g7); (try clear hrA); (try clear hrB); (try clear ht0); (try clear ht1); (try clear ht2); (try clear ht3); omega)
        have g5 : now = if 2 ≤ pa ∧ pa ≤ 5 then some true
                else if 2 ≤ 1 ∧ 1 ≤ 5 then some false else none := by rw [hno]; split_ifs <;> first | rfl | ((try clear g12); (try clear g11); (try clear g10); (try clear g9); (try clear g8); (try clear g7); (try clear hrA); (try clear hrB); (try clear ht0); (try clear ht1); (try clear ht2); (try clear ht3); omega)
        have g6 : nid = 1 + (if 4 ≤ pa then 1 else 0) + (if 4 ≤ 1 then 1 else 0) := by rw [hnid]; split_ifs <;> ((try clear g12); (try clear g11); (try clear g10); (try clear g9); (try clear g8); (try clear g7); (try clear hrA); (try clear hrB); (try clear ht0); (try clear ht1); (try clear ht2); (try clear ht3); omega)
        have g7 : 3 ≤ 1 → ∃ w, rb = some w ∧ w.title = tB ∧
                w.description = dB ∧ w.completed = false ∧
                (1 = 3 → w.id = nid) ∧ (1 = 4 ∨ 1 = 5 → w.id + 1 = nid) := fun h3 => absurd h3 (by norm_num)
        have g8 := hrA
        have g9 : pa < 5 ∧ 1 < 5 → tasks = [] := fun hx => ht0 ⟨hx.1, by ((try clear g12); (try clear g11); (try clear g10); (try clear g9); (try clear g8); (try clear g7); (try clear hrA); (try clear hrB); (try clear ht0); (try clear ht1); (try clear ht2); (try clear ht3); omega)⟩
        have g10 : 5 ≤ pa ∧ 1 < 5 → ∃ x, ra = some x ∧ tasks = [x] ∧ x.id = 1 := fun hx => ht1 ⟨hx.1, by ((try clear g12); (try clear g11); (try clear g10); (try clear g9); (try clear g8); (try clear g7); (try clear hrA); (try clear hrB); (try clear ht0); (try clear ht1); (try clear ht2); (try clear ht3); omega)⟩
        have g11 : pa < 5 ∧ 5 ≤ 1 → ∃ x, rb = some x ∧ tasks = [x] ∧ x.id = 1 := fun hx => absurd hx.2 (by norm_num)
        have g12 : 5 ≤ pa ∧ 5 ≤ 1 → ∃ x y, ra = some x ∧ rb = some y ∧
                ((tasks = [x, y] ∧ x.id = 1 ∧ y.id = 2) ∨
                 (tasks = [y, x] ∧ y.id = 1 ∧ x.id = 2)) :=
        fun hx => absurd hx.2 (by norm_num)
        exact ⟨hA6, g1, g3, g4, g5, g6, g8, g7, ⟨g9, g10, g11, g12⟩⟩
    · -- pc = 1: take the counter lock (the other thread is outside the window)
      have hnow : now = none := by rw [hno]; split_ifs <;> first | rfl | ((try clear g12); (try clear g11); (try clear g10); (try clear g9); (try clear g8); (try clear g7); (try clear hrA); (try clear hrB); (try clear ht0); (try clear ht1); (try clear ht2); (try clear ht3); omega)
      have hstep : cstep tA dA tB dB
          { tasks := tasks, next_id := nid, t_owner := tow, n_owner := now,
                        thA := { pc := pa, reg := ra },
                        thB := { pc := 1, reg := rb } } false
          = some { tasks := tasks, next_id := nid, t_owner := tow, n_owner := some false,
                        thA := { pc := pa, reg := ra },
                        thB := { pc := 2, reg := rb } } := by
        simp [cstep, thOf, setTh, hnow]
      rw [hstep]
      have g1 : (2 : Nat) ≤ 6 := by norm_num
      have g3 : ¬ (1 ≤ pa ∧ pa ≤ 5 ∧ 1 ≤ 2 ∧ 2 ≤ 5) := by ((try clear g12); (try clear g11); (try clear g10); (try clear g9); (try clear g8); (try clear g7); (try clear hrA); (try clear hrB); (try clear ht0); (try clear ht1); (try clear ht2); (try clear ht3); omega)
      have g4 : tow = if 1 ≤ pa ∧ pa ≤ 5 then some true
                else if 1 ≤ 2 ∧ 2 ≤ 5 then some false else none := by rw [hto]; split_ifs <;> first | rfl | ((try clear g12); (try clear g11); (try clear g10); (try clear g9); (try clear g8); (try clear g7); (try clear hrA); (try clear hrB); (try clear ht0); (try clear ht1); (try clear ht2); (try clear ht3); omega)
      have g5 : some false = if 2 ≤ pa ∧ pa ≤ 5 then some true
                else if 2 ≤ 2 ∧ 2 ≤ 5 then some false else none := by split_ifs <;> first | rfl | ((try clear g12); (try clear g11); (try clear g10); (try clear g9); (try clear g8); (try clear g7); (try clear hrA); (try clear hrB); (try clear ht0); (try clear ht1); (try clear ht2); (try clear ht3); omega)
      have g6 : nid = 1 + (if 4 ≤ pa then 1 else 0) + (if 4 ≤ 2 then 1 else 0) := by rw [hnid]; split_ifs <;> ((try clear g12); (try clear g11); (try clear g10); (try clear g9); (try clear g8); (try clear g7); (try clear hrA); (try clear hrB); (try clear ht0); (try clear ht1); (try clear ht2); (try clear ht3); omega)
      have g7 : 3 ≤ 2 → ∃ w, rb = some w ∧ w.title = tB ∧
                w.description = dB ∧ w.completed = false ∧
                (2 = 3 → w.id = nid) ∧ (2 = 4 ∨ 2 = 5 → w.id + 1 = nid) := fun h3 => absurd h3 (by norm_num)
      have g8 := hrA
      have g9 : pa < 5 ∧ 2 < 5 → tasks = [] := fun hx => ht0 ⟨hx.1, by ((try clear g12); (try clear g11); (try clear g10); (try clear g9); (try clear g8); (try clear g7); (try clear hrA); (try clear hrB); (try clear ht0); (try clear ht1); (try clear ht2); (try clear ht3); omega)⟩
      have g10 : 5 ≤ pa ∧ 2 < 5 → ∃ x, ra = some x ∧ tasks = [x] ∧ x.id = 1 := fun hx => ht1 ⟨hx.1, by ((try clear g12); (try clear g11); (try clear g10); (try clear g9); (try clear g8); (try clear g7); (try clear hrA); (try clear hrB); (try clear ht0); (try clear ht1); (try clear ht2); (try clear ht3); omega)⟩
      have g11 : pa < 5 ∧ 5 ≤ 2 → ∃ x, rb = some x ∧ tasks = [x] ∧ x.id = 1 := fun hx => absurd hx.2 (by norm_num)
      have g12 : 5 ≤ pa ∧ 5 ≤ 2 → ∃ x y, ra = some x ∧ rb = some y ∧
                ((tasks = [x, y] ∧ x.id = 1 ∧ y.id = 2) ∨
                 (tasks = [y, x] ∧ y.id = 1 ∧ x.id = 2)) :=
        fun hx => absurd hx.2 (by norm_num)
      exact ⟨hA6, g1, g3, g4, g5, g6, g8, g7, ⟨g9, g10, g11, g12⟩⟩
    · -- pc = 2: construct the local task from the current counter
      have hstep : cstep tA dA tB dB
          { tasks := tasks, next_id := nid, t_owner := tow, n_owner := now,
                        thA := { pc := pa, reg := ra },
                        thB := { pc := 2, reg := rb } } false
          = some { tasks := tasks, next_id := nid, t_owner := tow, n_owner := now,
                        thA := { pc := pa, reg := ra },
                        thB := { pc := 3, reg := some ({ id := nid, title := tB, description := dB, completed := false } : Task) } } := by
        simp [cstep, thOf, setTh]
      rw [hstep]
      have g1 : (3 : Nat) ≤ 6 := by norm_num
      have g3 : ¬ (1 ≤ pa ∧ pa ≤ 5 ∧ 1 ≤ 3 ∧ 3 ≤ 5) := by ((try clear g12); (try clear g11); (try clear g10); (try clear g9); (try clear g8); (try clear g7); (try clear hrA); (try clear hrB); (try clear ht0); (try clear ht1); (try clear ht2); (try clear ht3); omega)
      have g4 : tow = if 1 ≤ pa ∧ pa ≤ 5 then some true
                else if 1 ≤ 3 ∧ 3 ≤ 5 then some false else none := by rw [hto]; split_ifs <;> first | rfl | ((try clear g12); (try clear g11); (try clear g10); (try clear g9); (try clear g8); (try clear g7); (try clear hrA); (try clear hrB); (try clear ht0); (try clear ht1); (try clear ht2); (try clear ht3); omega)
      have g5 : now = if 2 ≤ pa ∧ pa ≤ 5 then some true
                else if 2 ≤ 3 ∧ 3 ≤ 5 then some false else none := by rw [hno]; split_ifs <;> first | rfl | ((try clear g12); (try clear g11); (try clear g10); (try clear g9); (try clear g8); (try clear g7); (try clear hrA); (try clear hrB); (try clear ht0); (try clear ht1); (try clear ht2); (try clear ht3); omega)
      have g6 : nid = 1 + (if 4 ≤ pa then 1 else 0) + (if 4 ≤ 3 then 1 else 0) := by rw [hnid]; split_ifs <;> ((try clear g12); (try clear g11); (try clear g10); (try clear g9); (try clear g8); (try clear g7); (try clear hrA); (try clear hrB); (try clear ht0); (try clear ht1); (try clear ht2); (try clear ht3); omega)
      have g7 : 3 ≤ 3 → ∃ w, some ({ id := nid, title := tB, description := dB, completed := false } : Task) = some w ∧ w.title = tB ∧
                w.description = dB ∧ w.completed = false ∧
                (3 = 3 → w.id = nid) ∧ (3 = 4 ∨ 3 = 5 → w.id + 1 = nid) :=
        fun h3 => ⟨_, rfl, rfl, rfl, rfl, fun h3x => rfl,
          fun hx => absurd hx (by norm_num)⟩
      have g8 := hrA
      have g9 : pa < 5 ∧ 3 < 5 → tasks = [] := fun hx => ht0 ⟨hx.1, by ((try clear g12); (try clear g11); (try clear g10); (try clear g9); (try clear g8); (try clear g7); (try clear hrA); (try clear hrB); (try clear ht0); (try clear ht1); (try clear ht2); (try clear ht3); omega)⟩
      have g10 : 5 ≤ pa ∧ 3 < 5 → ∃ x, ra = some x ∧ tasks = [x] ∧ x.id = 1 := fun hx => ht1 ⟨hx.1, by ((try clear g12); (try clear g11); (try clear g10); (try clear g9); (try clear g8); (try clear g7); (try clear hrA); (try clear hrB); (try clear ht0); (try clear ht1); (try clear ht2); (try clear ht3); omega)⟩
      have g11 : pa < 5 ∧ 5 ≤ 3 → ∃ x, some ({ id := nid, title := tB, description := dB, completed := false } : Task) = some x ∧ tasks = [x] ∧ x.id = 1 := fun hx => absurd hx.2 (by norm_num)
      have g12 : 5 ≤ pa ∧ 5 ≤ 3 → ∃ x y, ra = some x ∧ some ({ id := nid, title := tB, description := dB, completed := false } : Task) = some y ∧
                ((tasks = [x, y] ∧ x.id = 1 ∧ y.id = 2) ∨
                 (tasks = [y, x] ∧ y.id = 1 ∧ x.id = 2)) :=
        fun hx => absurd hx.2 (by norm_num)
      exact ⟨hA6, g1, g3, g4, g5, g6, g8, g7, ⟨g9, g10, g11, g12⟩⟩
    · -- pc = 3: increment the counter; nid is at most 2, so no wraparound
      have hq06 : pa = 0 ∨ pa = 6 := by ((try clear g12); (try clear g11); (try clear g10); (try clear g9); (try clear g8); (try clear g7); (try clear hrA); (try clear hrB); (try clear ht0); (try clear ht1); (try clear ht2); (try clear ht3); omega)
      have hnle : nid ≤ 2 := by rw [hnid]; split_ifs <;> ((try clear g12); (try clear g11); (try clear g10); (try clear g9); (try clear g8); (try clear g7); (try clear hrA); (try clear hrB); (try clear ht0); (try clear ht1); (try clear ht2); (try clear ht3); omega)
      have hmod : (nid + 1) % USIZE_MOD = nid + 1 := by
        have hM : (3 : Nat) < USIZE_MOD := by decide
        exact Nat.mod_eq_of_lt (by ((try clear g12); (try clear g11); (try clear g10); (try clear g9); (try clear g8); (try clear g7); (try clear hrA); (try clear hrB); (try clear ht0); (try clear ht1); (try clear ht2); (try clear ht3); omega))
      obtain ⟨tk, hreg, he1, he2, he3, hid3, _⟩ := hrB (by norm_num)
      have hstep : cstep tA dA tB dB
          { tasks := tasks, next_id := nid, t_owner := tow, n_owner := now,
                        thA := { pc := pa, reg := ra },
                        thB := { pc := 3, reg := rb } } false
          = some { tasks := tasks, next_id := nid + 1, t_owner := tow, n_owner := now,
                        thA := { pc := pa, reg := ra },
                        thB := { pc := 4, reg := rb } } := by
        simp [cstep, thOf, setTh, hmod]
      rw [hstep]
      have g1 : (4 : Nat) ≤ 6 := by norm_num
      have g3 : ¬ (1 ≤ pa ∧ pa ≤ 5 ∧ 1 ≤ 4 ∧ 4 ≤ 5) := by ((try clear g12); (try clear g11); (try clear g10); (try clear g9); (try clear g8); (try clear g7); (try clear hrA); (try clear hrB); (try clear ht0); (try clear ht1); (try clear ht2); (try clear ht3); omega)
      have g4 : tow = if 1 ≤ pa ∧ pa ≤ 5 then some true
                else if 1 ≤ 4 ∧ 4 ≤ 5 then some false else none := by rw [hto]; split_ifs <;> first | rfl | ((try clear g12); (try clear g11); (try clear g10); (try clear g9); (try clear g8); (try clear g7); (try clear hrA); (try clear hrB); (try clear ht0); (try clear ht1); (try clear ht2); (try clear ht3); omega)
      have g5 : now = if 2 ≤ pa ∧ pa ≤ 5 then some true
                else if 2 ≤ 4 ∧ 4 ≤ 5 then some false else none := by rw [hno]; split_ifs <;> first | rfl | ((try clear g12); (try clear g11); (try clear g10); (try clear g9); (try clear g8); (try clear g7); (try clear hrA); (try clear hrB); (try clear ht0); (try clear ht1); (try clear ht2); (try clear ht3); omega)
      have g6 : nid + 1 = 1 + (if 4 ≤ pa then 1 else 0) + (if 4 ≤ 4 then 1 else 0) := by rw [hnid]; split_ifs <;> ((try clear g12); (try clear g11); (try clear g10); (try clear g9); (try clear g8); (try clear g7); (try clear hrA); (try clear hrB); (try clear ht0); (try clear ht1); (try clear ht2); (try clear ht3); omega)
      have g7 : 3 ≤ 4 → ∃ w, rb = some w ∧ w.title = tB ∧
                w.description = dB ∧ w.completed = false ∧
                (4 = 3 → w.id = nid + 1) ∧ (4 = 4 ∨ 4 = 5 → w.id + 1 = nid + 1) :=
        fun h3 => ⟨tk, hreg, he1, he2, he3,
          fun hx => absurd hx (by norm_num),
          fun hx => by rw [hid3 rfl]⟩
      have g8 : 3 ≤ pa → ∃ w, ra = some w ∧ w.title = tA ∧
                w.description = dA ∧ w.completed = false ∧
                (pa = 3 → w.id = nid + 1) ∧ (pa = 4 ∨ pa = 5 → w.id + 1 = nid + 1) := by
        intro h3b
        rcases hq06 with h0 | h6
        · exact absurd h3b (by ((try clear g12); (try clear g11); (try clear g10); (try clear g9); (try clear g8); (try clear g7); (try clear hrA); (try clear hrB); (try clear ht0); (try clear ht1); (try clear ht2); (try clear ht3); omega))
        · obtain ⟨tk2, f1, f2, f3, f4, _, _⟩ := hrA h3b
          exact ⟨tk2, f1, f2, f3, f4, fun hh => absurd hh (by ((try clear g12); (try clear g11); (try clear g10); (try clear g9); (try clear g8); (try clear g7); (try clear hrA); (try clear hrB); (try clear ht0); (try clear ht1); (try clear ht2); (try clear ht3); omega)),
            fun hh => absurd hh (by ((try clear g12); (try clear g11); (try clear g10); (try clear g9); (try clear g8); (try clear g7); (try clear hrA); (try clear hrB); (try clear ht0); (try clear ht1); (try clear ht2); (try clear ht3); omega))⟩
      have g9 : pa < 5 ∧ 4 < 5 → tasks = [] := fun hx => ht0 ⟨hx.1, by ((try clear g12); (try clear g11); (try clear g10); (try clear g9); (try clear g8); (try clear g7); (try clear hrA); (try clear hrB); (try clear ht0); (try clear ht1); (try clear ht2); (try clear ht3); omega)⟩
      have g10 : 5 ≤ pa ∧ 4 < 5 → ∃ x, ra = some x ∧ tasks = [x] ∧ x.id = 1 := fun hx => ht1 ⟨hx.1, by ((try clear g12); (try clear g11); (try clear g10); (try clear g9); (try clear g8); (try clear g7); (try clear hrA); (try clear hrB); (try clear ht0); (try clear ht1); (try clear ht2); (try clear ht3); omega)⟩
      have g11 : pa < 5 ∧ 5 ≤ 4 → ∃ x, rb = some x ∧ tasks = [x] ∧ x.id = 1 := fun hx => absurd hx.2 (by norm_num)
      have g12 : 5 ≤ pa ∧ 5 ≤ 4 → ∃ x y, ra = some x ∧ rb = some y ∧
                ((tasks = [x, y] ∧ x.id = 1 ∧ y.id = 2) ∨
                 (tasks = [y, x] ∧ y.id = 1 ∧ x.id = 2)) :=
        fun hx => absurd hx.2 (by norm_num)
      exact ⟨hA6, g1, g3, g4, g5, g6, g8, g7, ⟨g9, g10, g11, g12⟩⟩
    · -- pc = 4: push the constructed task
      have hq06 : pa = 0 ∨ pa = 6 := by ((try clear g12); (try clear g11); (try clear g10); (try clear g9); (try clear g8); (try clear g7); (try clear hrA); (try clear hrB); (try clear ht0); (try clear ht1); (try clear ht2); (try clear ht3); omega)
      obtain ⟨tk, hreg, he1, he2, he3, _, hid45⟩ := hrB (by norm_num)
      have hid : tk.id + 1 = nid := hid45 (Or.inl rfl)
      have hstep : cstep tA dA tB dB
          { tasks := tasks, next_id := nid, t_owner := tow, n_owner := now,
                        thA := { pc := pa, reg := ra },
                        thB := { pc := 4, reg := rb } } false
          = some { tasks := tasks ++ [tk], next_id := nid, t_owner := tow, n_owner := now,
                        thA := { pc := pa, reg := ra },
                        thB := { pc := 5, reg := some tk } } := by
        simp [cstep, thOf, setTh, hreg]
      rw [hstep]
      have g1 : (5 : Nat) ≤ 6 := by norm_num
      have g3 : ¬ (1 ≤ pa ∧ pa ≤ 5 ∧ 1 ≤ 5 ∧ 5 ≤ 5) := by ((try clear g12); (try clear g11); (try clear g10); (try clear g9); (try clear g8); (try clear g7); (try clear hrA); (try clear hrB); (try clear ht0); (try clear ht1); (try clear ht2); (try clear ht3); omega)
      have g4 : tow = if 1 ≤ pa ∧ pa ≤ 5 then some true
                else if 1 ≤ 5 ∧ 5 ≤ 5 then some false else none := by rw [hto]; split_ifs <;> first | rfl | ((try clear g12); (try clear g11); (try clear g10); (try clear g9); (try clear g8); (try clear g7); (try clear hrA); (try clear hrB); (try clear ht0); (try clear ht1); (try clear ht2); (try clear ht3); omega)
      have g5 : now = if 2 ≤ pa ∧ pa ≤ 5 then some true
                else if 2 ≤ 5 ∧ 5 ≤ 5 then some false else none := by rw [hno]; split_ifs <;> first | rfl | ((try clear g12); (try clear g11); (try clear g10); (try clear g9); (try clear g8); (try clear g7); (try clear hrA); (try clear hrB); (try clear ht0); (try clear ht1); (try clear ht2); (try clear ht3); omega)
      have g6 : nid = 1 + (if 4 ≤ pa then 1 else 0) + (if 4 ≤ 5 then 1 else 0) := by rw [hnid]; split_ifs <;> ((try clear g12); (try clear g11); (try clear g10); (try clear g9); (try clear g8); (try clear g7); (try clear hrA); (try clear hrB); (try clear ht0); (try clear ht1); (try clear ht2); (try clear ht3); omega)
      have g7 : 3 ≤ 5 → ∃ w, some tk = some w ∧ w.title = tB ∧
                w.description = dB ∧ w.completed = false ∧
                (5 = 3 → w.id = nid) ∧ (5 = 4 ∨ 5 = 5 → w.id + 1 = nid) :=
        fun h3 => ⟨tk, rfl, he1, he2, he3,
          fun hx => absurd hx (by norm_num), fun hx => hid⟩
      have g8 := hrA
      rcases hq06 with h0 | h6
      · -- the other thread has not run: its task slot is empty
        have hts : tasks = [] := ht0 ⟨by ((try clear g12); (try clear g11); (try clear g10); (try clear g9); (try clear g8); (try clear g7); (try clear hrA); (try clear hrB); (try clear ht0); (try clear ht1); (try clear ht2); (try clear ht3); omega), by ((try clear g12); (try clear g11); (try clear g10); (try clear g9); (try clear g8); (try clear g7); (try clear hrA); (try clear hrB); (try clear ht0); (try clear ht1); (try clear ht2); (try clear ht3); omega)⟩
        have hn2 : nid = 2 := by rw [hnid]; split_ifs <;> ((try clear g12); (try clear g11); (try clear g10); (try clear g9); (try clear g8); (try clear g7); (try clear hrA); (try clear hrB); (try clear ht0); (try clear ht1); (try clear ht2); (try clear ht3); omega)
        have hone : tk.id = 1 := by ((try clear g12); (try clear g11); (try clear g10); (try clear g9); (try clear g8); (try clear g7); (try clear hrA); (try clear hrB); (try clear ht0); (try clear ht1); (try clear ht2); (try clear ht3); omega)
        have g9 : pa < 5 ∧ 5 < 5 → tasks ++ [tk] = [] := fun hx => absurd hx.2 (by norm_num)
        have g10 : 5 ≤ pa ∧ 5 < 5 → ∃ x, ra = some x ∧ tasks ++ [tk] = [x] ∧ x.id = 1 := fun hx => absurd hx.2 (by norm_num)
        have g11 : pa < 5 ∧ 5 ≤ 5 → ∃ x, some tk = some x ∧ tasks ++ [tk] = [x] ∧ x.id = 1 :=
          fun hx => ⟨tk, rfl, by simp [hts], hone⟩
        have g12 : 5 ≤ pa ∧ 5 ≤ 5 → ∃ x y, ra = some x ∧ some tk = some y ∧
                ((tasks ++ [tk] = [x, y] ∧ x.id = 1 ∧ y.id = 2) ∨
                 (tasks ++ [tk] = [y, x] ∧ y.id = 1 ∧ x.id = 2)) :=
          fun hx => absurd hx.1 (by ((try clear g12); (try clear g11); (try clear g10); (try clear g9); (try clear g8); (try clear g7); (try clear hrA); (try clear hrB); (try clear ht0); (try clear ht1); (try clear ht2); (try clear ht3); omega))
        exact ⟨hA6, g1, g3, g4, g5, g6, g8, g7, ⟨g9, g10, g11, g12⟩⟩
      · -- the other thread already finished: its task is in the list with id 1
        obtain ⟨to2, hro2, hts, hido⟩ := ht1 ⟨by ((try clear g12); (try clear g11); (try clear g10); (try clear g9); (try clear g8); (try clear g7); (try clear hrA); (try clear hrB); (try clear ht0); (try clear ht1); (try clear ht2); (try clear ht3); omega), by norm_num⟩
        have hn3 : nid = 3 := by rw [hnid]; split_ifs <;> ((try clear g12); (try clear g11); (try clear g10); (try clear g9); (try clear g8); (try clear g7); (try clear hrA); (try clear hrB); (try clear ht0); (try clear ht1); (try clear ht2); (try clear ht3); omega)
        have htwo : tk.id = 2 := by ((try clear g12); (try clear g11); (try clear g10); (try clear g9); (try clear g8); (try clear g7); (try clear hrA); (try clear hrB); (try clear ht0); (try clear ht1); (try clear ht2); (try clear ht3); omega)
        have g9 : pa < 5 ∧ 5 < 5 → tasks ++ [tk] = [] := fun hx => absurd hx.1 (by ((try clear g12); (try clear g11); (try clear g10); (try clear g9); (try clear g8); (try clear g7); (try clear hrA); (try clear hrB); (try clear ht0); (try clear ht1); (try clear ht2); (try clear ht3); omega))
        have g10 : 5 ≤ pa ∧ 5 < 5 → ∃ x, ra = some x ∧ tasks ++ [tk] = [x] ∧ x.id = 1 := fun hx => absurd hx.2 (by norm_num)
        have g11 : pa < 5 ∧ 5 ≤ 5 → ∃ x, some tk = some x ∧ tasks ++ [tk] = [x] ∧ x.id = 1 := fun hx => absurd hx.1 (by ((try clear g12); (try clear g11); (try clear g10); (try clear g9); (try clear g8); (try clear g7); (try clear hrA); (try clear hrB); (try clear ht0); (try clear ht1); (try clear ht2); (try clear ht3); omega))
        have g12 : 5 ≤ pa ∧ 5 ≤ 5 → ∃ x y, ra = some x ∧ some tk = some y ∧
                ((tasks ++ [tk] = [x, y] ∧ x.id = 1 ∧ y.id = 2) ∨
                 (tasks ++ [tk] = [y, x] ∧ y.id = 1 ∧ x.id = 2)) :=
          fun hx => ⟨to2, tk, hro2, rfl,
            Or.inl ⟨by simp [hts], hido, htwo⟩⟩
        exact ⟨hA6, g1, g3, g4, g5, g6, g8, g7, ⟨g9, g10, g11, g12⟩⟩
    · -- pc = 5: release both locks
      have hq06 : pa = 0 ∨ pa = 6 := by ((try clear g12); (try clear g11); (try clear g10); (try clear g9); (try clear g8); (try clear g7); (try clear hrA); (try clear hrB); (try clear ht0); (try clear ht1); (try clear ht2); (try clear ht3); omega)
      obtain ⟨tk, hreg, he1, he2, he3, _, _⟩ := hrB (by norm_num)
      have hstep : cstep tA dA tB dB
          { tasks := tasks, next_id := nid, t_owner := tow, n_owner := now,
                        thA := { pc := pa, reg := ra },
                        thB := { pc := 5, reg := rb } } false
          = some { tasks := tasks, next_id := nid, t_owner := none, n_owner := none,
                        thA := { pc := pa, reg := ra },
                        thB := { pc := 6, reg := rb } } := by
        simp [cstep, thOf, setTh]
      rw [hstep]
      have g1 : (6 : Nat) ≤ 6 := by norm_num
      have g3 : ¬ (1 ≤ pa ∧ pa ≤ 5 ∧ 1 ≤ 6 ∧ 6 ≤ 5) := by ((try clear g12); (try clear g11); (try clear g10); (try clear g9); (try clear g8); (try clear g7); (try clear hrA); (try clear hrB); (try clear ht0); (try clear ht1); (try clear ht2); (try clear ht3); omega)
      have g4 : (none : Option Bool) = if 1 ≤ pa ∧ pa ≤ 5 then some true
                else if 1 ≤ 6 ∧ 6 ≤ 5 then some false else none := by split_ifs <;> first | rfl | ((try clear g12); (try clear g11); (try clear g10); (try clear g9); (try clear g8); (try clear g7); (try clear hrA); (try clear hrB); (try clear ht0); (try clear ht1); (try clear ht2); (try clear ht3); omega)
      have g5 : (none : Option Bool) = if 2 ≤ pa ∧ pa ≤ 5 then some true
                else if 2 ≤ 6 ∧ 6 ≤ 5 then some false else none := by split_ifs <;> first | rfl | ((try clear g12); (try clear g11); (try clear g10); (try clear g9); (try clear g8); (try clear g7); (try clear hrA); (try clear hrB); (try clear ht0); (try clear ht1); (try clear ht2); (try clear ht3); omega)
      have g6 : nid = 1 + (if 4 ≤ pa then 1 else 0) + (if 4 ≤ 6 then 1 else 0) := by rw [hnid]; split_ifs <;> ((try clear g12); (try clear g11); (try clear g10); (try clear g9); (try clear g8); (try clear g7); (try clear hrA); (try clear hrB); (try clear ht0); (try clear ht1); (try clear ht2); (try clear ht3); omega)
      have g7 : 3 ≤ 6 → ∃ w, rb = some w ∧ w.title = tB ∧
                w.description = dB ∧ w.completed = false ∧
                (6 = 3 → w.id = nid) ∧ (6 = 4 ∨ 6 = 5 → w.id + 1 = nid) :=
        fun h3 => ⟨tk, hreg, he1, he2, he3,
          fun hx => absurd hx (by norm_num), fun hx => absurd hx (by norm_num)⟩
      have g8 := hrA
      have g9 : pa < 5 ∧ 6 < 5 → tasks = [] := fun hx => absurd hx.2 (by norm_num)
      have g10 : 5 ≤ pa ∧ 6 < 5 → ∃ x, ra = some x ∧ tasks = [x] ∧ x.id = 1 := fun hx => absurd hx.2 (by norm_num)
      have g11 : pa < 5 ∧ 5 ≤ 6 → ∃ x, rb = some x ∧ tasks = [x] ∧ x.id = 1 := fun hx => ht2 ⟨hx.1, by ((try clear g12); (try clear g11); (try clear g10); (try clear g9); (try clear g8); (try clear g7); (try clear hrA); (try clear hrB); (try clear ht0); (try clear ht1); (try clear ht2); (try clear ht3); omega)⟩
      have g12 : 5 ≤ pa ∧ 5 ≤ 6 → ∃ x y, ra = some x ∧ rb = some y ∧
                ((tasks = [x, y] ∧ x.id = 1 ∧ y.id = 2) ∨
                 (tasks = [y, x] ∧ y.id = 1 ∧ x.id = 2)) :=
        fun hx => ht3 ⟨hx.1, by ((try clear g12); (try clear g11); (try clear g10); (try clear g9); (try clear g8); (try clear g7); (try clear hrA); (try clear hrB); (try clear ht0); (try clear ht1); (try clear ht2); (try clear ht3); omega)⟩
      exact ⟨hA6, g1, g3, g4, g5, g6, g8, g7, ⟨g9, g10, g11, g12⟩⟩
    · -- pc = 6: finished, no further step
      have hnone : cstep tA dA tB dB
          { tasks := tasks, next_id := nid, t_owner := tow, n_owner := now,
                        thA := { pc := pa, reg := ra },
                        thB := { pc := 6, reg := rb } } false = none := by
        simp [cstep, thOf]
      rw [hnone]
      exact ⟨hA6, hB6, hmux, hto, hno, hnid, hrA, hrB, ht0, ht1, ht2, ht3⟩

/-- The invariant holds after any schedule. -/
theorem crun_inv (tA dA tB dB : String) (sched : List Bool) (c : Conf)
    (h : Inv tA dA tB dB c) : Inv tA dA tB dB (crun tA dA tB dB sched c) := by
  induction sched generalizing c with
  | nil => exact h
  | cons w rest ih => exact ih _ (cstep_inv tA dA tB dB c w h)

/-- Claim C4 (amended): for two concurrent `add_task` calls under any
schedule, once both complete, each received its own task with the
caller's title and description, the two ids are distinct, and the
shared vector holds exactly the two pushed tasks — no id is observed
twice and no append is lost.  This holds because both locks are held
across the whole read-construct-increment-push sequence, even though
the implementation acquires two separate locks (tasks, then counter)
rather than the single guard the claim demands. -/
theorem c4_both_locks_serialize (tA dA tB dB : String) (sched : List Bool)
    (hA : (crun tA dA tB dB sched cinit).thA.pc = 6)
    (hB : (crun tA dA tB dB sched cinit).thB.pc = 6) :
    ∃ ta tb,
      (crun tA dA tB dB sched cinit).thA.reg = some ta ∧
      (crun tA dA tB dB sched cinit).thB.reg = some tb ∧
      ta.id ≠ tb.id ∧
      ta.title = tA ∧ ta.description = dA ∧ ta.completed = false ∧
      tb.title = tB ∧ tb.description = dB ∧ tb.completed = false ∧
      ((crun tA dA tB dB sched cinit).tasks = [ta, tb] ∨
       (crun tA dA tB dB sched cinit).tasks = [tb, ta]) := by
  have hinv := crun_inv tA dA tB dB sched cinit (inv_cinit tA dA tB dB)
  simp only [Inv, RegOk, TasksOk] at hinv
  obtain ⟨h1c, h2c, h3c, h4c, h5c, h6c, hrA, hrB, ht0, ht1, ht2, ht3⟩ := hinv
  obtain ⟨ta, hra, hta1, hta2, hta3, _, _⟩ := hrA (by rw [hA]; norm_num)
  obtain ⟨tb, hrb, htb1, htb2, htb3, _, _⟩ := hrB (by rw [hB]; norm_num)
  obtain ⟨x, y, hx, hy, hcase⟩ := ht3 ⟨by rw [hA]; norm_num, by rw [hB]; norm_num⟩
  rw [hra] at hx
  rw [hrb] at hy
  obtain rfl : ta = x := Option.some.inj hx
  obtain rfl : tb = y := Option.some.inj hy
  rcases hcase with ⟨hts, hi1, hi2⟩ | ⟨hts, hi1, hi2⟩
  · exact ⟨ta, tb, hra, hrb, by ((try clear hrA); (try clear hrB); (try clear ht0); (try clear ht1); (try clear ht2); (try clear ht3); omega), hta1, hta2, hta3,
      htb1, htb2, htb3, Or.inl hts⟩
  · exact ⟨ta, tb, hra, hrb, by ((try clear hrA); (try clear hrB); (try clear ht0); (try clear ht1); (try clear ht2); (try clear ht3); omega), hta1, hta2, hta3,
      htb1, htb2, htb3, Or.inr hts⟩

/-- Witness for C4: a concrete schedule running call A to completion
and then call B. -/
theorem c4_witness :
    (crun "A" "a" "B" "b"
        [true, true, true, true, true, true,
         false, false, false, false, false, false] cinit).thA.pc = 6 ∧
    (crun "A" "a" "B" "b"
        [true, true, true, true, true, true,
         false, false, false, false, false, false] cinit).thB.pc = 6 ∧
    (∃ ta tb,
      (crun "A" "a" "B" "b"
          [true, true, true, true, true, true,
           false, false, false, false, false, false] cinit).thA.reg = some ta ∧
      (crun "A" "a" "B" "b"
          [true, true, true, true, true, true,
           false, false, false, false, false, false] cinit).thB.reg = some tb ∧
      ta.id ≠ tb.id ∧
      ta.title = "A" ∧ ta.description = "a" ∧ ta.completed = false ∧
      tb.title = "B" ∧ tb.description = "b" ∧ tb.completed = false ∧
      ((crun "A" "a" "B" "b"
          [true, true, true, true, true, true,
           false, false, false, false, false, false] cinit).tasks = [ta, tb] ∨
       (crun "A" "a" "B" "b"
          [true, true, true, true, true, true,
           false, false, false, false, false, false] cinit).tasks = [tb, ta])) :=
  ⟨rfl, rfl, c4_both_locks_serialize "A" "a" "B" "b"
    [true, true, true, true, true, true,
     false, false, false, false, false, false] rfl rfl⟩

/-- Counterexample to C4 as stated: after one micro-step the tasks lock
is held while the counter lock is still free — the reachable
configuration witnesses that the two shared cells are NOT protected by
one single exclusive guard but by two independently acquired locks
(src/main.rs lines 25-26 and 46-47). -/
theorem c4_counterexample :
    (crun "A" "a" "B" "b" [true] cinit).t_owner = some true ∧
    (crun "A" "a" "B" "b" [true] cinit).n_owner = none :=
  ⟨rfl, rfl⟩

end BugProwler
